import Mathlib

/-!
Fletcher4 checksum backends (superscalar4 and aarch64_neon).

A shallow embedding of `module/zcommon/zfs_fletcher_superscalar4.c` and
`module/zcommon/zfs_fletcher_aarch64_neon.c`, and of the id mappers of
`include/os/linux/spl/sys/cred.h`.

Conventions of the embedding.

* A `uint64_t` is a natural number; every C operation on it is followed by an
  explicit reduction modulo `2^64` (`add64`, `sub64`, `mul64`).
* A buffer is the list of 32-bit words that can be read starting at the
  pointer `buf`; the byte count `size` is a separate argument, exactly as in
  the C signature `(ctx, buf, size)`.  A read past the end of the list is an
  out-of-bounds read and makes the operation return `none`.
* The `_KERNEL` configuration is the one modelled: the vector variables are
  bound to the registers named in their `register ... asm("vN")`
  declarations.  The target is little-endian, as every aarch64 Linux kernel
  the file is built for.
* `printk` calls only print.  The buffer reads made to build their arguments
  are modelled as reads whose values are discarded: the reads of
  `ip2[0..4]` and `ip3[0..2]` at the entry of `fletcher_4_superscalar4_native`
  are out of bounds on a buffer of fewer than six words.  The `printk` calls
  inside the loops read again the words `ip[0..3]` that the iteration has
  just read, so they add no read.
-/

namespace Fletcher

/-! ## Unsigned 64-bit arithmetic -/

/-- Addition of two `uint64_t` values. -/
def add64 (a b : Nat) : Nat := (a + b) % 2 ^ 64

/-- Subtraction of two `uint64_t` values (wraps around below zero). -/
def sub64 (a b : Nat) : Nat := (a + (2 ^ 64 - b % 2 ^ 64)) % 2 ^ 64

/-- Multiplication of two `uint64_t` values. -/
def mul64 (a b : Nat) : Nat := (a * b) % 2 ^ 64

/-- Modelled from the spec: `BSWAP_32(x)` (defined in `sys/byteorder.h`, absent
from the sources): the 32-bit word `x` with its four bytes in reverse order. -/
def BSWAP_32 (x : Nat) : Nat :=
  (x % 256) * 2 ^ 24 + (x / 2 ^ 8 % 256) * 2 ^ 16 + (x / 2 ^ 16 % 256) * 2 ^ 8 + x / 2 ^ 24 % 256

/-! ## Data model -/

/-- Modelled from the spec: the checksum result `zio_cksum_t` (declared in
`sys/spa_checksum.h`, absent from the sources), an ordered 4-tuple of unsigned
64-bit words (A, B, C, D). -/
structure zio_cksum_t where
  A : Nat
  B : Nat
  C : Nat
  D : Nat
deriving DecidableEq, Repr

/-- Modelled from the spec: `ZIO_SET_CHECKSUM(zcp, A, B, C, D)` (defined in
`sys/spa_checksum.h`, absent from the sources): store the four words into the
checksum result. -/
def ZIO_SET_CHECKSUM (A B C D : Nat) : zio_cksum_t := ⟨A, B, C, D⟩

/-- Modelled from the spec: `zfs_fletcher_superscalar_t` (declared in
`zfs_fletcher.h`, absent from the sources): one accumulation level of the
superscalar4 layout, four 64-bit lanes `v[0..3]`. -/
structure zfs_fletcher_superscalar_t where
  v0 : Nat
  v1 : Nat
  v2 : Nat
  v3 : Nat
deriving DecidableEq, Repr

/-- Modelled from the spec: the `superscalar` member of `fletcher_4_ctx_t`
(declared in `zfs_fletcher.h`, absent from the sources): 4 accumulation levels
of 4 lanes, `ctx->superscalar[k].v[j]`. -/
structure superscalar_ctx where
  s0 : zfs_fletcher_superscalar_t
  s1 : zfs_fletcher_superscalar_t
  s2 : zfs_fletcher_superscalar_t
  s3 : zfs_fletcher_superscalar_t
deriving DecidableEq, Repr

/-- Modelled from the spec: `zfs_fletcher_aarch64_neon_t` (declared in
`zfs_fletcher.h`, absent from the sources): one accumulation level of the
aarch64_neon layout, two 64-bit lanes `v[0..1]`. -/
structure zfs_fletcher_aarch64_neon_t where
  v0 : Nat
  v1 : Nat
deriving DecidableEq, Repr

/-- Modelled from the spec: the `aarch64_neon` member of `fletcher_4_ctx_t`
(declared in `zfs_fletcher.h`, absent from the sources): 4 accumulation levels
of 2 lanes, `ctx->aarch64_neon[k].v[j]`. -/
structure aarch64_neon_ctx where
  n0 : zfs_fletcher_aarch64_neon_t
  n1 : zfs_fletcher_aarch64_neon_t
  n2 : zfs_fletcher_aarch64_neon_t
  n3 : zfs_fletcher_aarch64_neon_t
deriving DecidableEq, Repr

/-! ## Context memory -/

/-- The call `memset(p, 0, n)` on memory holding little-endian `uint64_t`
lanes: a lane lying within the first `n` bytes becomes 0, a lane straddling
byte `n` loses its low bytes, the lanes after it are untouched. -/
def memset0 : List Nat → Nat → List Nat
  | [], _ => []
  | x :: xs, n => (if 8 ≤ n then 0 else x / 256 ^ n * 256 ^ n) :: memset0 xs (n - 8)

/-- Modelled from the spec: `sizeof (zfs_fletcher_superscalar_t)` (the type is
declared in `zfs_fletcher.h`, absent from the sources): four 64-bit lanes. -/
def sizeof_zfs_fletcher_superscalar_t : Nat := 32

/-- Modelled from the spec: `sizeof (zfs_fletcher_aarch64_neon_t)` (the type is
declared in `zfs_fletcher.h`, absent from the sources): two 64-bit lanes. -/
def sizeof_zfs_fletcher_aarch64_neon_t : Nat := 16

/-- The sixteen lanes of `ctx->superscalar` in memory order. -/
def superscalar_ctx.lanes (c : superscalar_ctx) : List Nat :=
  [c.s0.v0, c.s0.v1, c.s0.v2, c.s0.v3, c.s1.v0, c.s1.v1, c.s1.v2, c.s1.v3,
   c.s2.v0, c.s2.v1, c.s2.v2, c.s2.v3, c.s3.v0, c.s3.v1, c.s3.v2, c.s3.v3]

/-- The context `ctx->superscalar` read back from its sixteen lanes in memory order. -/
def superscalar_ctx.ofLanes (l : List Nat) : superscalar_ctx :=
  ⟨⟨l.getD 0 0, l.getD 1 0, l.getD 2 0, l.getD 3 0⟩,
   ⟨l.getD 4 0, l.getD 5 0, l.getD 6 0, l.getD 7 0⟩,
   ⟨l.getD 8 0, l.getD 9 0, l.getD 10 0, l.getD 11 0⟩,
   ⟨l.getD 12 0, l.getD 13 0, l.getD 14 0, l.getD 15 0⟩⟩

/-- The eight lanes of `ctx->aarch64_neon` in memory order. -/
def aarch64_neon_ctx.lanes (c : aarch64_neon_ctx) : List Nat :=
  [c.n0.v0, c.n0.v1, c.n1.v0, c.n1.v1, c.n2.v0, c.n2.v1, c.n3.v0, c.n3.v1]

/-- The context `ctx->aarch64_neon` read back from its eight lanes in memory order. -/
def aarch64_neon_ctx.ofLanes (l : List Nat) : aarch64_neon_ctx :=
  ⟨⟨l.getD 0 0, l.getD 1 0⟩, ⟨l.getD 2 0, l.getD 3 0⟩,
   ⟨l.getD 4 0, l.getD 5 0⟩, ⟨l.getD 6 0, l.getD 7 0⟩⟩

/-! ## superscalar4: init and fini -/

/-- The function `fletcher_4_superscalar4_init`:
`memset(ctx->superscalar, 0, 4 * sizeof (zfs_fletcher_superscalar_t))`. -/
def fletcher_4_superscalar4_init (ctx : superscalar_ctx) : superscalar_ctx :=
  superscalar_ctx.ofLanes (memset0 ctx.lanes (4 * sizeof_zfs_fletcher_superscalar_t))

/-- The function `fletcher_4_superscalar4_fini`: the four checksum words, each
expression evaluated left to right in `uint64_t` arithmetic. -/
def fletcher_4_superscalar4_fini (ctx : superscalar_ctx) : zio_cksum_t :=
  let A := add64 (add64 (add64 ctx.s0.v0 ctx.s0.v1) ctx.s0.v2) ctx.s0.v3
  let B := add64 (add64 (add64 (add64 (sub64 (sub64 (sub64 0 ctx.s0.v1)
      (mul64 2 ctx.s0.v2)) (mul64 3 ctx.s0.v3)) (mul64 4 ctx.s1.v0))
      (mul64 4 ctx.s1.v1)) (mul64 4 ctx.s1.v2)) (mul64 4 ctx.s1.v3)
  let C := add64 (add64 (add64 (add64 (sub64 (sub64 (sub64 (sub64
      (add64 ctx.s0.v2 (mul64 3 ctx.s0.v3))
      (mul64 6 ctx.s1.v0)) (mul64 10 ctx.s1.v1)) (mul64 14 ctx.s1.v2)) (mul64 18 ctx.s1.v3))
      (mul64 16 ctx.s2.v0)) (mul64 16 ctx.s2.v1)) (mul64 16 ctx.s2.v2)) (mul64 16 ctx.s2.v3)
  let D := add64 (add64 (add64 (add64 (sub64 (sub64 (sub64 (sub64 (add64 (add64 (add64 (add64
      (sub64 0 ctx.s0.v3)
      (mul64 4 ctx.s1.v0)) (mul64 10 ctx.s1.v1)) (mul64 20 ctx.s1.v2)) (mul64 34 ctx.s1.v3))
      (mul64 48 ctx.s2.v0)) (mul64 64 ctx.s2.v1)) (mul64 80 ctx.s2.v2)) (mul64 96 ctx.s2.v3))
      (mul64 64 ctx.s3.v0)) (mul64 64 ctx.s3.v1)) (mul64 64 ctx.s3.v2)) (mul64 64 ctx.s3.v3)
  ZIO_SET_CHECKSUM A B C D

/-! ## Buffer reads -/

/-- Four consecutive 32-bit words `p[0], p[1], p[2], p[3]` read at word offset
`i` of the buffer; `none` when one of them lies past the end. -/
def load4 (buf : List Nat) (i : Nat) : Option (Nat × Nat × Nat × Nat) :=
  match buf[i]?, buf[i + 1]?, buf[i + 2]?, buf[i + 3]? with
  | some w0, some w1, some w2, some w3 => some (w0, w1, w2, w3)
  | _, _, _, _ => none

/-! ## superscalar4: the scalar accumulation loops -/

/-- One iteration of the loop body of `fletcher_4_superscalar4_native` on the
sixteen locals `a..d4`, given the four values added to `a, a2, a3, a4`. -/
def superscalar4_body (s : superscalar_ctx) (w0 w1 w2 w3 : Nat) : superscalar_ctx :=
  let a := add64 s.s0.v0 w0
  let a2 := add64 s.s0.v1 w1
  let a3 := add64 s.s0.v2 w2
  let a4 := add64 s.s0.v3 w3
  let b := add64 s.s1.v0 a
  let b2 := add64 s.s1.v1 a2
  let b3 := add64 s.s1.v2 a3
  let b4 := add64 s.s1.v3 a4
  let c := add64 s.s2.v0 b
  let c2 := add64 s.s2.v1 b2
  let c3 := add64 s.s2.v2 b3
  let c4 := add64 s.s2.v3 b4
  let d := add64 s.s3.v0 c
  let d2 := add64 s.s3.v1 c2
  let d3 := add64 s.s3.v2 c3
  let d4 := add64 s.s3.v3 c4
  ⟨⟨a, a2, a3, a4⟩, ⟨b, b2, b3, b4⟩, ⟨c, c2, c3, c4⟩, ⟨d, d2, d3, d4⟩⟩

/-- The loop `for (; ip < ipend; ip += 4, n++)` of
`fletcher_4_superscalar4_native`; `ip` and `ipend` are word offsets from `buf`. -/
def superscalar4_native_loop (buf : List Nat) (ipend : Nat) (ip : Nat)
    (s : superscalar_ctx) : Option superscalar_ctx :=
  if ip < ipend then
    match load4 buf ip with
    | some (w0, w1, w2, w3) =>
      superscalar4_native_loop buf ipend (ip + 4) (superscalar4_body s w0 w1 w2 w3)
    | none => none
  else some s
termination_by ipend - ip
decreasing_by omega

/-- The loop `for (; ip < ipend; ip += 4)` of `fletcher_4_superscalar4_byteswap`:
the same body with `BSWAP_32` applied to each word read. -/
def superscalar4_byteswap_loop (buf : List Nat) (ipend : Nat) (ip : Nat)
    (s : superscalar_ctx) : Option superscalar_ctx :=
  if ip < ipend then
    match load4 buf ip with
    | some (w0, w1, w2, w3) =>
      superscalar4_byteswap_loop buf ipend (ip + 4)
        (superscalar4_body s (BSWAP_32 w0) (BSWAP_32 w1) (BSWAP_32 w2) (BSWAP_32 w3))
    | none => none
  else some s
termination_by ipend - ip
decreasing_by omega

/-- The function `fletcher_4_superscalar4_byteswap`: `ipend = ip + size / 4`,
the sixteen locals are loaded from the context, the loop runs, and the locals
are stored back. -/
def fletcher_4_superscalar4_byteswap (ctx : superscalar_ctx) (buf : List Nat) (size : Nat) :
    Option superscalar_ctx :=
  superscalar4_byteswap_loop buf (size / 4) 0 ctx

/-! ## Vector registers -/

/-- A 128-bit vector register, held as its two 64-bit lanes `.2d[0]` and `.2d[1]`. -/
structure VReg where
  d0 : Nat
  d1 : Nat
deriving DecidableEq, Repr

/-- The 32-bit lane `.4s[0]`. -/
def VReg.e0 (r : VReg) : Nat := r.d0 % 2 ^ 32
/-- The 32-bit lane `.4s[1]`. -/
def VReg.e1 (r : VReg) : Nat := r.d0 / 2 ^ 32 % 2 ^ 32
/-- The 32-bit lane `.4s[2]`. -/
def VReg.e2 (r : VReg) : Nat := r.d1 % 2 ^ 32
/-- The 32-bit lane `.4s[3]`. -/
def VReg.e3 (r : VReg) : Nat := r.d1 / 2 ^ 32 % 2 ^ 32

/-- A register built from its four 32-bit lanes. -/
def VReg.of4s (x0 x1 x2 x3 : Nat) : VReg := ⟨x0 + 2 ^ 32 * x1, x2 + 2 ^ 32 * x3⟩

/-- The instruction `eor Vd.16b, Vn.16b, Vm.16b`. -/
def VReg.eor (n m : VReg) : VReg := ⟨n.d0 ^^^ m.d0, n.d1 ^^^ m.d1⟩
/-- The instruction `add Vd.2d, Vn.2d, Vm.2d`. -/
def VReg.add2d (n m : VReg) : VReg := ⟨add64 n.d0 m.d0, add64 n.d1 m.d1⟩
/-- The instruction `uaddw Vd.2d, Vn.2d, Vm.2s`: widen the two low words of `Vm` and add. -/
def VReg.uaddw (n m : VReg) : VReg := ⟨add64 n.d0 m.e0, add64 n.d1 m.e1⟩
/-- The instruction `uaddw2 Vd.2d, Vn.2d, Vm.4s`: widen the two high words of `Vm` and add. -/
def VReg.uaddw2 (n m : VReg) : VReg := ⟨add64 n.d0 m.e2, add64 n.d1 m.e3⟩
/-- The instruction `zip1 Vd.4s, Vn.4s, Vm.4s`. -/
def VReg.zip1 (n m : VReg) : VReg := VReg.of4s n.e0 m.e0 n.e1 m.e1
/-- The instruction `zip2 Vd.4s, Vn.4s, Vm.4s`. -/
def VReg.zip2 (n m : VReg) : VReg := VReg.of4s n.e2 m.e2 n.e3 m.e3
/-- The instruction `rev32 Vd.16b, Vn.16b`: the bytes of every 32-bit lane reversed. -/
def VReg.rev32 (n : VReg) : VReg :=
  VReg.of4s (BSWAP_32 n.e0) (BSWAP_32 n.e1) (BSWAP_32 n.e2) (BSWAP_32 n.e3)

/-- What an observer of the vector unit sees: the acquire and release of the
vector scope and each `asm` statement that touches vector registers. -/
inductive Event where
  | kfpu_begin
  | vec
  | kfpu_end
deriving DecidableEq, Repr

/-- The machine state outside the context: the vector register file
`v0 .. v31` and the trace of events so far. -/
structure Machine where
  v : Nat → VReg
  trace : List Event

/-- Write vector register `vi`. -/
def Machine.setv (m : Machine) (i : Nat) (x : VReg) : Machine :=
  { m with v := fun j => if j = i then x else m.v j }

/-- Record an event. -/
def Machine.emit (m : Machine) (e : Event) : Machine :=
  { m with trace := m.trace ++ [e] }

/-- Modelled from the spec: `kfpu_begin()` (declared in `sys/simd.h`, absent
from the sources), the acquire of the vector execution context.  The register
contents it leaves are not specified; they are kept as they are and the
theorems quantify over them. -/
def kfpu_begin (m : Machine) : Machine := m.emit Event.kfpu_begin

/-- Modelled from the spec: `kfpu_end()` (declared in `sys/simd.h`, absent from
the sources), the release of the vector execution context. -/
def kfpu_end (m : Machine) : Machine := m.emit Event.kfpu_end

/-- A 16-byte `ld1 { Vt.4s }` of one context level. -/
def ld1_neon (l : zfs_fletcher_aarch64_neon_t) : VReg := ⟨l.v0, l.v1⟩

/-- A 16-byte `st1 { Vt.4s }` into one context level. -/
def st1_neon (r : VReg) : zfs_fletcher_aarch64_neon_t := ⟨r.d0, r.d1⟩

/-! ## aarch64_neon: init and fini -/

/-- The function `fletcher_4_aarch64_neon_init`:
`memset(ctx->aarch64_neon, 0, 4 * sizeof (zfs_fletcher_aarch64_neon_t))`. -/
def fletcher_4_aarch64_neon_init (ctx : aarch64_neon_ctx) : aarch64_neon_ctx :=
  aarch64_neon_ctx.ofLanes (memset0 ctx.lanes (4 * sizeof_zfs_fletcher_aarch64_neon_t))

/-- The function `fletcher_4_aarch64_neon_fini`: the four checksum words, each
expression evaluated left to right in `uint64_t` arithmetic. -/
def fletcher_4_aarch64_neon_fini (ctx : aarch64_neon_ctx) : zio_cksum_t :=
  let A := add64 ctx.n0.v0 ctx.n0.v1
  let B := sub64 (add64 (mul64 2 ctx.n1.v0) (mul64 2 ctx.n1.v1)) ctx.n0.v1
  let C := sub64 (add64 (sub64 (mul64 4 ctx.n2.v0) ctx.n1.v0) (mul64 4 ctx.n2.v1))
      (mul64 3 ctx.n1.v1)
  let D := add64 (sub64 (add64 (sub64 (mul64 8 ctx.n3.v0) (mul64 4 ctx.n2.v0))
      (mul64 8 ctx.n3.v1)) (mul64 8 ctx.n2.v1)) ctx.n1.v1
  ZIO_SET_CHECKSUM A B C D

/-! ## aarch64_neon: the asm statements -/

/-- The statement `NEON_INIT_LOOP()`: clear `v0`, load the four context levels
into `v1 .. v4`. -/
def NEON_INIT_LOOP (m : Machine) (ctx : aarch64_neon_ctx) : Machine :=
  let m := m.setv 0 (VReg.eor (m.v 0) (m.v 0))
  let m := m.setv 1 (ld1_neon ctx.n0)
  let m := m.setv 2 (ld1_neon ctx.n1)
  let m := m.setv 3 (ld1_neon ctx.n2)
  let m := m.setv 4 (ld1_neon ctx.n3)
  m.emit Event.vec

/-- The statement `NEON_INIT_LOOP2()`: clear `ZERO` (`v0`), load the four
context levels into `ACC0 .. ACC3` (`v1 .. v4`). -/
def NEON_INIT_LOOP2 (m : Machine) (ctx : aarch64_neon_ctx) : Machine :=
  let m := m.setv 0 (VReg.eor (m.v 0) (m.v 0))
  let m := m.setv 1 (ld1_neon ctx.n0)
  let m := m.setv 2 (ld1_neon ctx.n1)
  let m := m.setv 3 (ld1_neon ctx.n2)
  let m := m.setv 4 (ld1_neon ctx.n3)
  m.emit Event.vec

/-- The statement `NEON_SUPERSCALAR8()`: `ldp q21, q20, [ip]` loads the words
`p` (16 bytes at `ip`) and `q` (the next 16 bytes), followed by the sixteen
additions as written. -/
def NEON_SUPERSCALAR8 (m : Machine) (p q : Nat × Nat × Nat × Nat) : Machine :=
  let m := m.setv 21 (VReg.of4s p.1 p.2.1 p.2.2.1 p.2.2.2)
  let m := m.setv 20 (VReg.of4s q.1 q.2.1 q.2.2.1 q.2.2.2)
  let m := m.setv 19 (VReg.uaddw (m.v 19) (m.v 21))
  let m := m.setv 18 (VReg.uaddw2 (m.v 18) (m.v 21))
  let m := m.setv 17 (VReg.uaddw (m.v 17) (m.v 20))
  let m := m.setv 16 (VReg.uaddw2 (m.v 16) (m.v 20))
  let m := m.setv 7 (VReg.add2d (m.v 7) (m.v 19))
  let m := m.setv 6 (VReg.add2d (m.v 6) (m.v 18))
  let m := m.setv 5 (VReg.add2d (m.v 5) (m.v 17))
  let m := m.setv 4 (VReg.add2d (m.v 4) (m.v 16))
  let m := m.setv 3 (VReg.add2d (m.v 3) (m.v 7))
  let m := m.setv 2 (VReg.add2d (m.v 2) (m.v 6))
  let m := m.setv 1 (VReg.add2d (m.v 1) (m.v 5))
  let m := m.setv 0 (VReg.add2d (m.v 0) (m.v 4))
  let m := m.setv 25 (VReg.add2d (m.v 25) (m.v 3))
  let m := m.setv 24 (VReg.add2d (m.v 24) (m.v 2))
  let m := m.setv 23 (VReg.add2d (m.v 23) (m.v 1))
  let m := m.setv 22 (VReg.add2d (m.v 22) (m.v 0))
  m.emit Event.vec

/-- The statement `NEON_MAIN_LOOP(REVERSE)` with `SRC = v7`, `TMP1 = v5`,
`TMP2 = v6`, `ACC0 .. ACC3 = v1 .. v4`, `ZERO = v0`; `reverse` tells whether
`REVERSE` is `NEON_DO_REVERSE` (the `rev32`) or `NEON_DONT_REVERSE` (nothing). -/
def NEON_MAIN_LOOP (reverse : Bool) (m : Machine) (p : Nat × Nat × Nat × Nat) : Machine :=
  let m := m.setv 7 (VReg.of4s p.1 p.2.1 p.2.2.1 p.2.2.2)
  let m := if reverse then m.setv 7 (VReg.rev32 (m.v 7)) else m
  let m := m.setv 5 (VReg.zip1 (m.v 7) (m.v 0))
  let m := m.setv 6 (VReg.zip2 (m.v 7) (m.v 0))
  let m := m.setv 1 (VReg.add2d (m.v 1) (m.v 5))
  let m := m.setv 2 (VReg.add2d (m.v 2) (m.v 1))
  let m := m.setv 3 (VReg.add2d (m.v 3) (m.v 2))
  let m := m.setv 4 (VReg.add2d (m.v 4) (m.v 3))
  let m := m.setv 1 (VReg.add2d (m.v 1) (m.v 6))
  let m := m.setv 2 (VReg.add2d (m.v 2) (m.v 1))
  let m := m.setv 3 (VReg.add2d (m.v 3) (m.v 2))
  let m := m.setv 4 (VReg.add2d (m.v 4) (m.v 3))
  m.emit Event.vec

/-- The statement `NEON_FINI_LOOP1()`: store `v1 .. v4` into the four context
levels; the second component is the context written. -/
def NEON_FINI_LOOP1 (m : Machine) : Machine × aarch64_neon_ctx :=
  (m.emit Event.vec, ⟨st1_neon (m.v 1), st1_neon (m.v 2), st1_neon (m.v 3), st1_neon (m.v 4)⟩)

/-- The statement `NEON_FINI_LOOP2()`: store `v1 .. v4` into the four context
levels; the second component is the context written. -/
def NEON_FINI_LOOP2 (m : Machine) : Machine × aarch64_neon_ctx :=
  (m.emit Event.vec, ⟨st1_neon (m.v 1), st1_neon (m.v 2), st1_neon (m.v 3), st1_neon (m.v 4)⟩)

/-! ## aarch64_neon: the compute operations -/

/-- The loop `for (; ip < ipend; ip += 2) NEON_SUPERSCALAR8();` of
`fletcher_4_aarch64_neon_native`.  `ip` counts 64-bit units from `buf` and
`ipend` is `size` bytes after `buf`, so `ip < ipend` is `8 * ip < size`; the
32 bytes loaded at `ip` are the words at offsets `2 * ip .. 2 * ip + 7`. -/
def aarch64_neon_native_loop (buf : List Nat) (size : Nat) (ip : Nat) (m : Machine) :
    Option Machine :=
  if 8 * ip < size then
    match load4 buf (2 * ip), load4 buf (2 * ip + 4) with
    | some p, some q => aarch64_neon_native_loop buf size (ip + 2) (NEON_SUPERSCALAR8 m p q)
    | _, _ => none
  else some m
termination_by size - 8 * ip
decreasing_by omega

/-- The loop `for (; ip < ipend; ip += 2) NEON_MAIN_LOOP(NEON_DO_REVERSE);` of
`fletcher_4_aarch64_neon_byteswap`; the 16 bytes loaded at `ip` are the words
at offsets `2 * ip .. 2 * ip + 3`. -/
def aarch64_neon_byteswap_loop (buf : List Nat) (size : Nat) (ip : Nat) (m : Machine) :
    Option Machine :=
  if 8 * ip < size then
    match load4 buf (2 * ip) with
    | some p => aarch64_neon_byteswap_loop buf size (ip + 2) (NEON_MAIN_LOOP true m p)
    | none => none
  else some m
termination_by size - 8 * ip
decreasing_by omega

/-- What a compute operation of the aarch64_neon backend leaves behind: the
context and the machine state outside it. -/
structure neon_result where
  ctx : aarch64_neon_ctx
  m : Machine

/-- The function `fletcher_4_aarch64_neon_native`; `m` is the machine state
on entry. -/
def fletcher_4_aarch64_neon_native (m : Machine) (ctx : aarch64_neon_ctx) (buf : List Nat)
    (size : Nat) : Option neon_result :=
  let m := kfpu_begin m
  let m := NEON_INIT_LOOP m ctx
  match aarch64_neon_native_loop buf size 0 m with
  | none => none
  | some m =>
    let r := NEON_FINI_LOOP1 m
    some ⟨r.2, kfpu_end r.1⟩

/-- The function `fletcher_4_aarch64_neon_byteswap`; `m` is the machine state
on entry. -/
def fletcher_4_aarch64_neon_byteswap (m : Machine) (ctx : aarch64_neon_ctx) (buf : List Nat)
    (size : Nat) : Option neon_result :=
  let m := kfpu_begin m
  let m := NEON_INIT_LOOP2 m ctx
  match aarch64_neon_byteswap_loop buf size 0 m with
  | none => none
  | some m =>
    let r := NEON_FINI_LOOP2 m
    some ⟨r.2, kfpu_end r.1⟩

/-! ## superscalar4: the vector path of the native operation -/

/-- A 32-byte `ld1 { Va.4s, Vb.4s }` of one level of the local array
`superscalar[k]`: lanes 0, 1 go to the first register, lanes 2, 3 to the second. -/
def ld1_superscalar (l : zfs_fletcher_superscalar_t) : VReg × VReg := (⟨l.v0, l.v1⟩, ⟨l.v2, l.v3⟩)

/-- The statement `SUPERSCALAR4_NEON_INIT()` with `AA2 = v10`, `A3A4 = v11`,
`BB2 = v12`, `B3B4 = v13`, `CC2 = v14`, `C3C4 = v15`, `DD2 = v16`,
`D3D4 = v17`; `superscalar` is the local copy of the context taken on entry. -/
def SUPERSCALAR4_NEON_INIT (m : Machine) (superscalar : superscalar_ctx) : Machine :=
  let m := m.setv 10 (ld1_superscalar superscalar.s0).1
  let m := m.setv 11 (ld1_superscalar superscalar.s0).2
  let m := m.setv 12 (ld1_superscalar superscalar.s1).1
  let m := m.setv 13 (ld1_superscalar superscalar.s1).2
  let m := m.setv 14 (ld1_superscalar superscalar.s2).1
  let m := m.setv 15 (ld1_superscalar superscalar.s2).2
  let m := m.setv 16 (ld1_superscalar superscalar.s3).1
  let m := m.setv 17 (ld1_superscalar superscalar.s3).2
  m.emit Event.vec

/-- The statement `SUPERSCALAR4_NEON_MAIN_LOAD()` with `SRC1 = v18`,
`SRC2 = v19`, `ZERO = v20`, `TMP1 = v21`, `TMP2 = v22`. -/
def SUPERSCALAR4_NEON_MAIN_LOAD (m : Machine) (p : Nat × Nat × Nat × Nat) : Machine :=
  let m := m.setv 18 (VReg.of4s p.1 p.2.1 p.2.2.1 p.2.2.2)
  let m := m.setv 20 (VReg.eor (m.v 20) (m.v 20))
  let m := m.setv 21 (VReg.zip1 (m.v 18) (m.v 20))
  let m := m.setv 22 (VReg.zip2 (m.v 18) (m.v 20))
  let m := m.setv 19 (VReg.of4s p.1 p.2.1 p.2.2.1 p.2.2.2)
  m.emit Event.vec

/-- The statement `SUPERSCALAR4_NEON_MAIN()`, instruction by instruction (the
`mov` instructions to general registers only feed `printk`). -/
def SUPERSCALAR4_NEON_MAIN (m : Machine) : Machine :=
  let m := m.setv 10 (VReg.add2d (m.v 10) (m.v 21))
  let m := m.setv 11 (VReg.add2d (m.v 11) (m.v 22))
  let m := m.setv 12 (VReg.add2d (m.v 12) (m.v 10))
  let m := m.setv 13 (VReg.add2d (m.v 13) (m.v 11))
  let m := m.setv 14 (VReg.add2d (m.v 14) (m.v 12))
  let m := m.setv 15 (VReg.add2d (m.v 15) (m.v 13))
  let m := m.setv 16 (VReg.add2d (m.v 17) (m.v 14))
  let m := m.setv 17 (VReg.add2d (m.v 17) (m.v 15))
  m.emit Event.vec

/-- The statement `SUPERSCALAR4_NEON_FINI_LOOP()`: the sixteen values
`val00 .. val33` moved out of the vector registers, `val<k><j>` held at level
`k`, lane `j`. -/
def SUPERSCALAR4_NEON_FINI_LOOP (m : Machine) : Machine × superscalar_ctx :=
  (m.emit Event.vec,
   ⟨⟨(m.v 10).d0, (m.v 10).d1, (m.v 11).d0, (m.v 11).d1⟩,
    ⟨(m.v 12).d0, (m.v 12).d1, (m.v 13).d0, (m.v 13).d1⟩,
    ⟨(m.v 14).d0, (m.v 14).d1, (m.v 15).d0, (m.v 15).d1⟩,
    ⟨(m.v 16).d0, (m.v 16).d1, (m.v 17).d0, (m.v 17).d1⟩⟩)

/-- The loop `for (; ip2 < ipend; ip2 += 4, m++)` of the vector path (the
prefetch `PREF1KL1` changes no register and no memory). -/
def superscalar4_neon_loop (buf : List Nat) (ipend : Nat) (ip2 : Nat) (m : Machine) :
    Option Machine :=
  if ip2 < ipend then
    match load4 buf ip2 with
    | some p =>
      superscalar4_neon_loop buf ipend (ip2 + 4)
        (SUPERSCALAR4_NEON_MAIN (SUPERSCALAR4_NEON_MAIN_LOAD m p))
    | none => none
  else some m
termination_by ipend - ip2
decreasing_by omega

/-- What `fletcher_4_superscalar4_native` leaves behind: the context, the
machine state outside it, and the sixteen values `val00 .. val33` of the
vector path. -/
structure superscalar4_native_result where
  ctx : superscalar_ctx
  m : Machine
  vals : superscalar_ctx

/-- One 64-bit word `p[i]` read through the pointer `ip3` at 64-bit offset `i`
of the buffer, as its low and high 32-bit words; `none` when it lies past the
end. -/
def load64 (buf : List Nat) (i : Nat) : Option (Nat × Nat) :=
  match buf[2 * i]?, buf[2 * i + 1]? with
  | some lo, some hi => some (lo, hi)
  | _, _ => none

/-- The buffer reads that build the arguments of the `printk` calls at the
entry of `fletcher_4_superscalar4_native`, made whatever `size` is:
`ip2[0], ip2[1], ip2[2], ip2[3], ip2[4]` as 32-bit words and
`ip3[0], ip3[1], ip3[2]` as 64-bit words.  The values only go to the log;
the result is `none` when one of the reads lies past the end. -/
def native_printk_reads (buf : List Nat) : Option Unit :=
  match load4 buf 0, buf[4]?, load64 buf 0, load64 buf 1, load64 buf 2 with
  | some _, some _, some _, some _, some _ => some ()
  | _, _, _, _, _ => none

/-- The function `fletcher_4_superscalar4_native`; `m` is the machine state on
entry.  The reads for the `printk` calls come first.  The scalar loop then
runs on the locals `a .. d4` loaded from the context and stores them back;
the vector path then runs on the local copy `superscalar` taken on entry. -/
def fletcher_4_superscalar4_native (m : Machine) (ctx : superscalar_ctx) (buf : List Nat)
    (size : Nat) : Option superscalar4_native_result :=
  let ipend := size / 4
  match native_printk_reads buf with
  | none => none
  | some _ =>
    let superscalar := ctx
    match superscalar4_native_loop buf ipend 0 ctx with
    | none => none
    | some ctx1 =>
      let m := SUPERSCALAR4_NEON_INIT m superscalar
      match superscalar4_neon_loop buf ipend 0 m with
      | none => none
      | some m =>
        let r := SUPERSCALAR4_NEON_FINI_LOOP m
        some ⟨ctx1, r.1, r.2⟩

/-! ## The serial reference -/

/-- One step of the canonical serial Fletcher4 cascade, as the specification
words it: `a += w, b += a, c += b, d += c`, all modulo `2^64`. -/
def spec_fletcher4_step (s : zio_cksum_t) (w : Nat) : zio_cksum_t :=
  let a := add64 s.A w
  let b := add64 s.B a
  let c := add64 s.C b
  let d := add64 s.D c
  ⟨a, b, c, d⟩

/-- The canonical serial Fletcher4 cascade from a given start over the words in order. -/
def spec_fletcher4_from (s : zio_cksum_t) (ws : List Nat) : zio_cksum_t :=
  ws.foldl spec_fletcher4_step s

/-- The canonical serial Fletcher4 checksum: start `a = b = c = d = 0`. -/
def spec_fletcher4 (ws : List Nat) : zio_cksum_t := spec_fletcher4_from ⟨0, 0, 0, 0⟩ ws

/-- A machine state with every vector register zero and an empty trace. -/
def Machine.zero : Machine := ⟨fun _ => ⟨0, 0⟩, []⟩

/-! ## Helper definitions for the proofs -/

/-- A state folded over a list of words taken four at a time; a tail of fewer
than four words is left alone. -/
def fold4 {α : Type} (f : α → Nat → Nat → Nat → Nat → α) : α → List Nat → α
  | s, w0 :: w1 :: w2 :: w3 :: rest => fold4 f (f s w0 w1 w2 w3) rest
  | s, _ => s

/-- The context part of the result of `fletcher_4_superscalar4_native`. -/
def native_ctx (r : Option superscalar4_native_result) : Option superscalar_ctx :=
  r.map (fun x => x.ctx)

/-- The effect of one `NEON_MAIN_LOOP` on the eight accumulator lanes, given
the four values folded in: the cascade runs once with the first two values and
once with the last two. -/
def neon_body (c : aarch64_neon_ctx) (x0 x1 x2 x3 : Nat) : aarch64_neon_ctx :=
  let a0 := add64 c.n0.v0 x0
  let a1 := add64 c.n0.v1 x1
  let b0 := add64 c.n1.v0 a0
  let b1 := add64 c.n1.v1 a1
  let c0 := add64 c.n2.v0 b0
  let c1 := add64 c.n2.v1 b1
  let d0 := add64 c.n3.v0 c0
  let d1 := add64 c.n3.v1 c1
  let e0 := add64 a0 x2
  let e1 := add64 a1 x3
  let f0 := add64 b0 e0
  let f1 := add64 b1 e1
  let g0 := add64 c0 f0
  let g1 := add64 c1 f1
  let h0 := add64 d0 g0
  let h1 := add64 d1 g1
  ⟨⟨e0, e1⟩, ⟨f0, f1⟩, ⟨g0, g1⟩, ⟨h0, h1⟩⟩

/-- The accumulator registers `v1 .. v4` read as a context. -/
def neon_regs (m : Machine) : aarch64_neon_ctx :=
  ⟨st1_neon (m.v 1), st1_neon (m.v 2), st1_neon (m.v 3), st1_neon (m.v 4)⟩

/-! ## Availability -/

/-- The function `fletcher_4_superscalar4_valid`: `return (B_TRUE)`.  The
argument is the value the vector-availability oracle `kfpu_allowed()` has in
the environment; the function does not consult it. -/
def fletcher_4_superscalar4_valid (_kfpu_allowed : Bool) : Bool := true

/-- The function `fletcher_4_aarch64_neon_valid`: `return (kfpu_allowed())`,
the argument being the value of the oracle `kfpu_allowed()` (declared in
`sys/simd.h`, absent from the sources). -/
def fletcher_4_aarch64_neon_valid (kfpu_allowed : Bool) : Bool := kfpu_allowed

/-! ## Sub-streams and lanes, as the specification words them -/

/-- Every second word of a list, starting with the first. -/
def every2 : List Nat → List Nat
  | [] => []
  | [w] => [w]
  | w :: _ :: rest => w :: every2 rest

/-- Every fourth word of a list, starting with the first. -/
def every4 : List Nat → List Nat
  | [] => []
  | [w] => [w]
  | [w, _] => [w]
  | [w, _, _] => [w]
  | w :: _ :: _ :: _ :: rest => w :: every4 rest

/-- The sub-stream `i` of a 4-way interleaving: the words at positions
`i, i + 4, i + 8, ...`. -/
def substream4 (i : Nat) (ws : List Nat) : List Nat := every4 (ws.drop i)

/-- The sub-stream `j` of a 2-way interleaving: the words at positions
`j, j + 2, j + 4, ...`. -/
def substream2 (j : Nat) (ws : List Nat) : List Nat := every2 (ws.drop j)

/-- The four levels `superscalar[0..3].v[i]` of lane `i` (lane 3 for `i ≥ 3`),
as the 4-tuple the serial cascade runs on. -/
def superscalar_ctx.lane (c : superscalar_ctx) (i : Nat) : zio_cksum_t :=
  match i with
  | 0 => ⟨c.s0.v0, c.s1.v0, c.s2.v0, c.s3.v0⟩
  | 1 => ⟨c.s0.v1, c.s1.v1, c.s2.v1, c.s3.v1⟩
  | 2 => ⟨c.s0.v2, c.s1.v2, c.s2.v2, c.s3.v2⟩
  | _ => ⟨c.s0.v3, c.s1.v3, c.s2.v3, c.s3.v3⟩

/-- The four levels `aarch64_neon[0..3].v[j]` of lane `j` (lane 1 for `j ≥ 1`),
as the 4-tuple the serial cascade runs on. -/
def aarch64_neon_ctx.lane (c : aarch64_neon_ctx) (j : Nat) : zio_cksum_t :=
  match j with
  | 0 => ⟨c.n0.v0, c.n1.v0, c.n2.v0, c.n3.v0⟩
  | _ => ⟨c.n0.v1, c.n1.v1, c.n2.v1, c.n3.v1⟩

/-! ## The closed form, as the specification words it -/

/-- The closed form of the Fletcher4 checksum of the words `w_0 .. w_(n-1)`:
`A = sum of w_i`, `B = sum of (n-i) * w_i`, `C = sum of binom(n-i+1, 2) * w_i`,
`D = sum of binom(n-i+2, 3) * w_i`, each sum over `i = 0 .. n-1` and reduced
modulo `2^64`. -/
def spec_closed_form (ws : List Nat) : zio_cksum_t :=
  let n := ws.length
  ⟨(Finset.sum (Finset.range n) fun i => ws.getD i 0) % 2 ^ 64,
   (Finset.sum (Finset.range n) fun i => (n - i) * ws.getD i 0) % 2 ^ 64,
   (Finset.sum (Finset.range n) fun i => Nat.choose (n - i + 1) 2 * ws.getD i 0) % 2 ^ 64,
   (Finset.sum (Finset.range n) fun i => Nat.choose (n - i + 2) 3 * ws.getD i 0) % 2 ^ 64⟩

/-- The linear combination of `fletcher_4_superscalar4_fini` taken over the
integers, with its signed coefficients, and reduced modulo `2^64` at the end. -/
def spec_superscalar4_fini_int (c : superscalar_ctx) : zio_cksum_t :=
  let a0 : Int := c.s0.v0
  let a1 : Int := c.s0.v1
  let a2 : Int := c.s0.v2
  let a3 : Int := c.s0.v3
  let b0 : Int := c.s1.v0
  let b1 : Int := c.s1.v1
  let b2 : Int := c.s1.v2
  let b3 : Int := c.s1.v3
  let c0 : Int := c.s2.v0
  let c1 : Int := c.s2.v1
  let c2 : Int := c.s2.v2
  let c3 : Int := c.s2.v3
  let d0 : Int := c.s3.v0
  let d1 : Int := c.s3.v1
  let d2 : Int := c.s3.v2
  let d3 : Int := c.s3.v3
  ⟨((a0 + a1 + a2 + a3) % 2 ^ 64).toNat,
   ((-a1 - 2 * a2 - 3 * a3 + 4 * b0 + 4 * b1 + 4 * b2 + 4 * b3) % 2 ^ 64).toNat,
   ((a2 + 3 * a3 - 6 * b0 - 10 * b1 - 14 * b2 - 18 * b3
      + 16 * c0 + 16 * c1 + 16 * c2 + 16 * c3) % 2 ^ 64).toNat,
   ((-a3 + 4 * b0 + 10 * b1 + 20 * b2 + 34 * b3 - 48 * c0 - 64 * c1 - 80 * c2 - 96 * c3
      + 64 * d0 + 64 * d1 + 64 * d2 + 64 * d3) % 2 ^ 64).toNat⟩

/-- The weighted sum `sum over i < n of f (n - i) * w_i` of a word list of length `n`. -/
def wsum (f : Nat → Nat) (ws : List Nat) : Nat :=
  Finset.sum (Finset.range ws.length) fun i => f (ws.length - i) * ws.getD i 0

/-! ## The finalization calls as effects on memory -/

/-- The whole effect of the call `fletcher_4_superscalar4_fini(ctx, zcp)` on
the two objects it is handed: the context after the call and the checksum
words after the call.  The body assigns to no lane of `ctx`. -/
def fletcher_4_superscalar4_fini_call (ctx : superscalar_ctx) (_zcp : zio_cksum_t) :
    superscalar_ctx × zio_cksum_t :=
  (ctx, fletcher_4_superscalar4_fini ctx)

/-- The whole effect of the call `fletcher_4_aarch64_neon_fini(ctx, zcp)` on
the two objects it is handed: the context after the call and the checksum
words after the call.  The body assigns to no lane of `ctx`. -/
def fletcher_4_aarch64_neon_fini_call (ctx : aarch64_neon_ctx) (_zcp : zio_cksum_t) :
    aarch64_neon_ctx × zio_cksum_t :=
  (ctx, fletcher_4_aarch64_neon_fini ctx)

end Fletcher

namespace Cred

/-! ## The id mappers of `sys/cred.h` -/

/-- A mount user namespace as the id mappers see it.  The Linux kernel
functions that consult it are not part of these sources and are taken as they
come: `make_kuid` is `uid ↦ __kuid_val(make_kuid(ns, uid))`, `from_kuid` is
`uid ↦ from_kuid(ns, KUIDT_INIT(uid))`, and likewise for group ids. -/
structure user_namespace where
  make_kuid : Nat → Nat
  from_kuid : Nat → Nat
  make_kgid : Nat → Nat
  from_kgid : Nat → Nat

/-- The function `zfs_uid_into_mnt`; the pointer `mnt_ns` is `none` when it is `NULL`. -/
def zfs_uid_into_mnt (mnt_ns : Option user_namespace) (uid : Nat) : Nat :=
  match mnt_ns with
  | some ns => ns.make_kuid uid
  | none => uid

/-- The function `zfs_gid_into_mnt`; the pointer `mnt_ns` is `none` when it is `NULL`. -/
def zfs_gid_into_mnt (mnt_ns : Option user_namespace) (gid : Nat) : Nat :=
  match mnt_ns with
  | some ns => ns.make_kgid gid
  | none => gid

/-- The function `zfs_uid_from_mnt`; the pointer `mnt_ns` is `none` when it is `NULL`. -/
def zfs_uid_from_mnt (mnt_ns : Option user_namespace) (uid : Nat) : Nat :=
  match mnt_ns with
  | some ns => ns.from_kuid uid
  | none => uid

/-- The function `zfs_gid_from_mnt`; the pointer `mnt_ns` is `none` when it is `NULL`. -/
def zfs_gid_from_mnt (mnt_ns : Option user_namespace) (gid : Nat) : Nat :=
  match mnt_ns with
  | some ns => ns.from_kgid gid
  | none => gid

end Cred

namespace Fletcher

/-! ## Arithmetic modulo 2^64 -/

theorem add64_lt (a b : Nat) : add64 a b < 2 ^ 64 := Nat.mod_lt _ (by norm_num)
theorem sub64_lt (a b : Nat) : sub64 a b < 2 ^ 64 := Nat.mod_lt _ (by norm_num)
theorem mul64_lt (a b : Nat) : mul64 a b < 2 ^ 64 := Nat.mod_lt _ (by norm_num)

theorem cast_add64 (a b : Nat) : ((add64 a b : Nat) : ZMod (2 ^ 64)) = (a : ZMod (2 ^ 64)) + b := by
  unfold add64
  rw [ZMod.natCast_mod]
  push_cast
  rfl

theorem cast_mul64 (a b : Nat) : ((mul64 a b : Nat) : ZMod (2 ^ 64)) = (a : ZMod (2 ^ 64)) * b := by
  unfold mul64
  rw [ZMod.natCast_mod]
  push_cast
  rfl

theorem cast_sub64 (a b : Nat) : ((sub64 a b : Nat) : ZMod (2 ^ 64)) = (a : ZMod (2 ^ 64)) - b := by
  unfold sub64
  rw [ZMod.natCast_mod]
  have h : b % 2 ^ 64 ≤ 2 ^ 64 := (Nat.mod_lt _ (by norm_num)).le
  rw [Nat.cast_add, Nat.cast_sub h, ZMod.natCast_mod, ZMod.natCast_self]
  ring

theorem eq_of_cast_eq {a b : Nat} (ha : a < 2 ^ 64) (hb : b < 2 ^ 64)
    (h : (a : ZMod (2 ^ 64)) = (b : ZMod (2 ^ 64))) : a = b := by
  have h2 := (ZMod.natCast_eq_natCast_iff' a b (2 ^ 64)).1 h
  rwa [Nat.mod_eq_of_lt ha, Nat.mod_eq_of_lt hb] at h2

theorem zio_ext {x y : zio_cksum_t} (hA : x.A = y.A) (hB : x.B = y.B) (hC : x.C = y.C)
    (hD : x.D = y.D) : x = y := by
  cases x; cases y; simp_all

/-- The superscalar4 finalization commutes with one group of four words. -/
theorem superscalar4_fini_body (s : superscalar_ctx) (w0 w1 w2 w3 : Nat) :
    fletcher_4_superscalar4_fini (superscalar4_body s w0 w1 w2 w3) =
      spec_fletcher4_from (fletcher_4_superscalar4_fini s) [w0, w1, w2, w3] := by
  apply zio_ext
  all_goals
    simp only [fletcher_4_superscalar4_fini, superscalar4_body, spec_fletcher4_from,
      spec_fletcher4_step, ZIO_SET_CHECKSUM, List.foldl]
    apply eq_of_cast_eq (add64_lt _ _) (add64_lt _ _)
    simp only [cast_add64, cast_sub64, cast_mul64]
    push_cast
    ring

theorem fold4_map {α : Type} (f : α → Nat → Nat → Nat → Nat → α) (g : Nat → Nat) :
    ∀ (ws : List Nat) (s : α),
      fold4 (fun s a b c d => f s (g a) (g b) (g c) (g d)) s ws = fold4 f s (ws.map g)
  | [], _ => rfl
  | [_], _ => rfl
  | [_, _], _ => rfl
  | [_, _, _], _ => rfl
  | w0 :: w1 :: w2 :: w3 :: rest, s => by
    simp only [fold4, List.map]
    exact fold4_map f g rest _

theorem fold4_append {α : Type} (f : α → Nat → Nat → Nat → Nat → α) :
    ∀ (xs ys : List Nat) (s : α), xs.length % 4 = 0 →
      fold4 f s (xs ++ ys) = fold4 f (fold4 f s xs) ys
  | [], _, _, _ => by simp [fold4]
  | [_], _, _, h => by simp at h
  | [_, _], _, _, h => by simp at h
  | [_, _, _], _, _, h => by simp at h
  | w0 :: w1 :: w2 :: w3 :: rest, ys, s, h => by
    have h2 : rest.length % 4 = 0 := by
      simp only [List.length_cons] at h
      omega
    simp only [List.cons_append, fold4]
    exact fold4_append f rest ys _ h2

/-- Finalization turns a fold over groups of four into the serial cascade. -/
theorem fold4_spec {α : Type} (fini : α → zio_cksum_t) (f : α → Nat → Nat → Nat → Nat → α)
    (hkey : ∀ s w0 w1 w2 w3,
      fini (f s w0 w1 w2 w3) = spec_fletcher4_from (fini s) [w0, w1, w2, w3]) :
    ∀ (ws : List Nat) (s : α), ws.length % 4 = 0 →
      fini (fold4 f s ws) = spec_fletcher4_from (fini s) ws
  | [], _, _ => rfl
  | [_], _, h => by simp at h
  | [_, _], _, h => by simp at h
  | [_, _, _], _, h => by simp at h
  | w0 :: w1 :: w2 :: w3 :: rest, s, h => by
    have h2 : rest.length % 4 = 0 := by
      simp only [List.length_cons] at h
      omega
    rw [fold4, fold4_spec fini f hkey rest _ h2, hkey]
    simp [spec_fletcher4_from]

/-! ## Buffer reads -/

theorem load4_append (pre rest : List Nat) (w0 w1 w2 w3 : Nat) :
    load4 (pre ++ w0 :: w1 :: w2 :: w3 :: rest) pre.length = some (w0, w1, w2, w3) := by
  have h0 : (pre ++ w0 :: w1 :: w2 :: w3 :: rest)[pre.length]? = some w0 := by
    rw [List.getElem?_append_right (le_refl _)]; simp
  have h1 : (pre ++ w0 :: w1 :: w2 :: w3 :: rest)[pre.length + 1]? = some w1 := by
    rw [List.getElem?_append_right (by omega)]; simp
  have h2 : (pre ++ w0 :: w1 :: w2 :: w3 :: rest)[pre.length + 2]? = some w2 := by
    rw [List.getElem?_append_right (by omega)]; simp
  have h3 : (pre ++ w0 :: w1 :: w2 :: w3 :: rest)[pre.length + 3]? = some w3 := by
    rw [List.getElem?_append_right (by omega)]; simp
  simp only [load4, h0, h1, h2, h3]

theorem load4_map (g : Nat → Nat) (buf : List Nat) (i : Nat) :
    load4 (buf.map g) i = (load4 buf i).map (fun p => (g p.1, g p.2.1, g p.2.2.1, g p.2.2.2)) := by
  simp only [load4, List.getElem?_map]
  cases buf[i]? <;> cases buf[i + 1]? <;> cases buf[i + 2]? <;> cases buf[i + 3]? <;> rfl

/-! ## The superscalar4 scalar loops as folds -/

theorem superscalar4_native_loop_fold :
    ∀ (rest pre : List Nat) (s : superscalar_ctx), rest.length % 4 = 0 →
      superscalar4_native_loop (pre ++ rest) (pre.length + rest.length) pre.length s =
        some (fold4 superscalar4_body s rest)
  | [], pre, s, _ => by
    rw [superscalar4_native_loop]
    simp [fold4]
  | [_], _, _, h => by simp at h
  | [_, _], _, _, h => by simp at h
  | [_, _, _], _, _, h => by simp at h
  | w0 :: w1 :: w2 :: w3 :: rest, pre, s, h => by
    have h2 : rest.length % 4 = 0 := by
      simp only [List.length_cons] at h
      omega
    have ih := superscalar4_native_loop_fold rest (pre ++ [w0, w1, w2, w3])
      (superscalar4_body s w0 w1 w2 w3) h2
    rw [superscalar4_native_loop, load4_append]
    simp only [List.length_cons, fold4]
    have e1 : (pre ++ [w0, w1, w2, w3]) ++ rest = pre ++ w0 :: w1 :: w2 :: w3 :: rest := by simp
    have e2 : (pre ++ [w0, w1, w2, w3]).length = pre.length + 4 := by simp
    rw [e1, e2] at ih
    have e3 : pre.length + 4 + rest.length = pre.length + (rest.length + 1 + 1 + 1 + 1) := by omega
    rw [e3] at ih
    rw [if_pos (by omega)]
    exact ih

theorem superscalar4_byteswap_loop_fold :
    ∀ (rest pre : List Nat) (s : superscalar_ctx), rest.length % 4 = 0 →
      superscalar4_byteswap_loop (pre ++ rest) (pre.length + rest.length) pre.length s =
        some (fold4 superscalar4_body s (rest.map BSWAP_32))
  | [], pre, s, _ => by
    rw [superscalar4_byteswap_loop]
    simp [fold4]
  | [_], _, _, h => by simp at h
  | [_, _], _, _, h => by simp at h
  | [_, _, _], _, _, h => by simp at h
  | w0 :: w1 :: w2 :: w3 :: rest, pre, s, h => by
    have h2 : rest.length % 4 = 0 := by
      simp only [List.length_cons] at h
      omega
    have ih := superscalar4_byteswap_loop_fold rest (pre ++ [w0, w1, w2, w3])
      (superscalar4_body s (BSWAP_32 w0) (BSWAP_32 w1) (BSWAP_32 w2) (BSWAP_32 w3)) h2
    rw [superscalar4_byteswap_loop, load4_append]
    simp only [List.length_cons, fold4, List.map]
    have e1 : (pre ++ [w0, w1, w2, w3]) ++ rest = pre ++ w0 :: w1 :: w2 :: w3 :: rest := by simp
    have e2 : (pre ++ [w0, w1, w2, w3]).length = pre.length + 4 := by simp
    rw [e1, e2] at ih
    have e3 : pre.length + 4 + rest.length = pre.length + (rest.length + 1 + 1 + 1 + 1) := by omega
    rw [e3] at ih
    rw [if_pos (by omega)]
    exact ih

/-- The vector loop of the native operation reads the same words as the scalar
loop, so it returns normally exactly when the scalar loop does. -/
theorem superscalar4_neon_loop_isSome (buf : List Nat) (ipend : Nat) :
    ∀ (n ip : Nat) (s : superscalar_ctx) (m : Machine), ipend - ip ≤ n →
      (superscalar4_neon_loop buf ipend ip m).isSome =
        (superscalar4_native_loop buf ipend ip s).isSome := by
  intro n
  induction n with
  | zero =>
    intro ip s m h
    rw [superscalar4_neon_loop, superscalar4_native_loop]
    rw [if_neg (by omega), if_neg (by omega)]
    rfl
  | succ n ih =>
    intro ip s m h
    rw [superscalar4_neon_loop, superscalar4_native_loop]
    by_cases hlt : ip < ipend
    · rw [if_pos hlt, if_pos hlt]
      cases hl : load4 buf ip with
      | none => rfl
      | some p =>
        obtain ⟨w0, w1, w2, w3⟩ := p
        exact ih (ip + 4) _ _ (by omega)
    · rw [if_neg hlt, if_neg hlt]
      rfl

/-- The reads for the `printk` calls succeed exactly on six readable words. -/
theorem native_printk_reads_some :
    ∀ {buf : List Nat}, 6 ≤ buf.length → native_printk_reads buf = some ()
  | [], h => by simp at h
  | [_], h => by simp at h
  | [_, _], h => by simp at h
  | [_, _, _], h => by simp at h
  | [_, _, _, _], h => by simp at h
  | [_, _, _, _, _], h => by simp at h
  | _ :: _ :: _ :: _ :: _ :: _ :: _, _ => by simp [native_printk_reads, load4, load64]

theorem native_printk_reads_none {buf : List Nat} (h : buf.length < 6) :
    native_printk_reads buf = none := by
  have h5 : buf[2 * 2 + 1]? = none := List.getElem?_eq_none (by omega)
  unfold native_printk_reads
  have hl : load64 buf 2 = none := by
    unfold load64
    rw [h5]
    cases buf[2 * 2]? <;> rfl
  rw [hl]
  cases load4 buf 0 <;> cases buf[4]? <;> cases load64 buf 0 <;> cases load64 buf 1 <;> rfl

/-- On a buffer of fewer than six words the native operation reads out of bounds. -/
theorem native_none_of_short (m : Machine) (ctx : superscalar_ctx) {buf : List Nat} (size : Nat)
    (h : buf.length < 6) : fletcher_4_superscalar4_native m ctx buf size = none := by
  unfold fletcher_4_superscalar4_native
  dsimp only
  rw [native_printk_reads_none h]

/-- With six readable words, the context left by the native operation is the
one the scalar loop computes. -/
theorem native_ctx_eq (m : Machine) (ctx : superscalar_ctx) (buf : List Nat) (size : Nat)
    (h6 : 6 ≤ buf.length) :
    native_ctx (fletcher_4_superscalar4_native m ctx buf size) =
      superscalar4_native_loop buf (size / 4) 0 ctx := by
  have hs := superscalar4_neon_loop_isSome buf (size / 4) (size / 4) 0 ctx
    (SUPERSCALAR4_NEON_INIT m ctx) (by omega)
  unfold native_ctx fletcher_4_superscalar4_native
  dsimp only
  rw [native_printk_reads_some h6]
  dsimp only
  cases h : superscalar4_native_loop buf (size / 4) 0 ctx with
  | none => rfl
  | some c =>
    rw [h] at hs
    cases h2 : superscalar4_neon_loop buf (size / 4) 0 (SUPERSCALAR4_NEON_INIT m ctx) with
    | none => rw [h2] at hs; simp at hs
    | some m2 => rfl

theorem native_ctx_fold (m : Machine) (ctx : superscalar_ctx) (buf : List Nat)
    (h : buf.length % 4 = 0) (h6 : 6 ≤ buf.length) :
    native_ctx (fletcher_4_superscalar4_native m ctx buf (4 * buf.length)) =
      some (fold4 superscalar4_body ctx buf) := by
  rw [native_ctx_eq m ctx buf _ h6, Nat.mul_div_cancel_left _ (by norm_num : 0 < 4)]
  simpa using superscalar4_native_loop_fold buf [] ctx h

theorem byteswap_fold (ctx : superscalar_ctx) (buf : List Nat) (h : buf.length % 4 = 0) :
    fletcher_4_superscalar4_byteswap ctx buf (4 * buf.length) =
      some (fold4 superscalar4_body ctx (buf.map BSWAP_32)) := by
  unfold fletcher_4_superscalar4_byteswap
  rw [Nat.mul_div_cancel_left _ (by norm_num : 0 < 4)]
  simpa using superscalar4_byteswap_loop_fold buf [] ctx h

theorem native_ctx_some {r : Option superscalar4_native_result} {c : superscalar_ctx}
    (h : native_ctx r = some c) : ∃ x, r = some x ∧ x.ctx = c := by
  cases r with
  | none => simp [native_ctx] at h
  | some x => exact ⟨x, rfl, by simpa [native_ctx] using h⟩

/-! ## Vector lanes -/

theorem BSWAP_32_lt (x : Nat) : BSWAP_32 x < 2 ^ 32 := by
  unfold BSWAP_32
  omega

theorem rev32_of4s {x0 x1 x2 x3 : Nat} (h0 : x0 < 2 ^ 32) (h1 : x1 < 2 ^ 32)
    (h2 : x2 < 2 ^ 32) (h3 : x3 < 2 ^ 32) :
    VReg.rev32 (VReg.of4s x0 x1 x2 x3) =
      VReg.of4s (BSWAP_32 x0) (BSWAP_32 x1) (BSWAP_32 x2) (BSWAP_32 x3) := by
  have e0 : (x0 + 2 ^ 32 * x1) % 2 ^ 32 = x0 := by omega
  have e1 : (x0 + 2 ^ 32 * x1) / 2 ^ 32 % 2 ^ 32 = x1 := by omega
  have e2 : (x2 + 2 ^ 32 * x3) % 2 ^ 32 = x2 := by omega
  have e3 : (x2 + 2 ^ 32 * x3) / 2 ^ 32 % 2 ^ 32 = x3 := by omega
  simp only [VReg.rev32, VReg.of4s, VReg.e0, VReg.e1, VReg.e2, VReg.e3, e0, e1, e2, e3]

theorem zip1_of4s_zero {x0 x1 : Nat} (x2 x3 : Nat) (h0 : x0 < 2 ^ 32) (h1 : x1 < 2 ^ 32) :
    VReg.zip1 (VReg.of4s x0 x1 x2 x3) ⟨0, 0⟩ = ⟨x0, x1⟩ := by
  have e0 : (x0 + 2 ^ 32 * x1) % 2 ^ 32 = x0 := by omega
  have e1 : (x0 + 2 ^ 32 * x1) / 2 ^ 32 % 2 ^ 32 = x1 := by omega
  simp only [VReg.zip1, VReg.of4s, VReg.e0, VReg.e1, e0, e1]
  norm_num

theorem zip2_of4s_zero (x0 x1 : Nat) {x2 x3 : Nat} (h2 : x2 < 2 ^ 32) (h3 : x3 < 2 ^ 32) :
    VReg.zip2 (VReg.of4s x0 x1 x2 x3) ⟨0, 0⟩ = ⟨x2, x3⟩ := by
  have e2 : (x2 + 2 ^ 32 * x3) % 2 ^ 32 = x2 := by omega
  have e3 : (x2 + 2 ^ 32 * x3) / 2 ^ 32 % 2 ^ 32 = x3 := by omega
  simp only [VReg.zip2, VReg.of4s, VReg.e2, VReg.e3, e2, e3]
  norm_num

theorem setv_v (m : Machine) (i j : Nat) (x : VReg) :
    (m.setv i x).v j = if j = i then x else m.v j := rfl

theorem setv_trace (m : Machine) (i : Nat) (x : VReg) : (m.setv i x).trace = m.trace := rfl

theorem emit_v (m : Machine) (e : Event) : (m.emit e).v = m.v := rfl

theorem emit_trace (m : Machine) (e : Event) : (m.emit e).trace = m.trace ++ [e] := rfl

/-- One `NEON_MAIN_LOOP(NEON_DO_REVERSE)` on a machine whose `ZERO` register
is zero: the accumulators advance by `neon_body` on the byte-reversed words,
`ZERO` stays zero, and one vector event is recorded. -/
theorem NEON_MAIN_LOOP_regs (m : Machine) {w0 w1 w2 w3 : Nat} (hz : m.v 0 = ⟨0, 0⟩)
    (h0 : w0 < 2 ^ 32) (h1 : w1 < 2 ^ 32) (h2 : w2 < 2 ^ 32) (h3 : w3 < 2 ^ 32) :
    neon_regs (NEON_MAIN_LOOP true m (w0, w1, w2, w3)) =
        neon_body (neon_regs m) (BSWAP_32 w0) (BSWAP_32 w1) (BSWAP_32 w2) (BSWAP_32 w3) ∧
      (NEON_MAIN_LOOP true m (w0, w1, w2, w3)).v 0 = ⟨0, 0⟩ ∧
      (NEON_MAIN_LOOP true m (w0, w1, w2, w3)).trace = m.trace ++ [Event.vec] := by
  have hr := rev32_of4s h0 h1 h2 h3
  have hz1 := zip1_of4s_zero (BSWAP_32 w2) (BSWAP_32 w3) (BSWAP_32_lt w0) (BSWAP_32_lt w1)
  have hz2 := zip2_of4s_zero (BSWAP_32 w0) (BSWAP_32 w1) (BSWAP_32_lt w2) (BSWAP_32_lt w3)
  refine ⟨?_, ?_, ?_⟩
  · simp [NEON_MAIN_LOOP, neon_regs, neon_body, setv_v, emit_v, hz, hr, hz1, hz2,
      VReg.add2d, st1_neon]
  · simp [NEON_MAIN_LOOP, setv_v, emit_v, hz]
  · simp [NEON_MAIN_LOOP, setv_trace, emit_trace]

/-- The aarch64_neon finalization commutes with one group of four words. -/
theorem neon_fini_body (c : aarch64_neon_ctx) (x0 x1 x2 x3 : Nat) :
    fletcher_4_aarch64_neon_fini (neon_body c x0 x1 x2 x3) =
      spec_fletcher4_from (fletcher_4_aarch64_neon_fini c) [x0, x1, x2, x3] := by
  apply zio_ext
  all_goals
    simp only [fletcher_4_aarch64_neon_fini, neon_body, spec_fletcher4_from,
      spec_fletcher4_step, ZIO_SET_CHECKSUM, List.foldl]
    first
      | apply eq_of_cast_eq (sub64_lt _ _) (add64_lt _ _)
      | apply eq_of_cast_eq (add64_lt _ _) (add64_lt _ _)
    simp only [cast_add64, cast_sub64, cast_mul64]
    push_cast
    ring

theorem aarch64_neon_byteswap_loop_fold :
    ∀ (rest pre : List Nat) (ip : Nat) (m : Machine), rest.length % 4 = 0 →
      (∀ w ∈ rest, w < 2 ^ 32) → pre.length = 2 * ip → m.v 0 = ⟨0, 0⟩ →
      ∃ m2, aarch64_neon_byteswap_loop (pre ++ rest) (4 * (pre.length + rest.length)) ip m =
          some m2 ∧
        neon_regs m2 = fold4 neon_body (neon_regs m) (rest.map BSWAP_32) ∧
        m2.trace = m.trace ++ List.replicate (rest.length / 4) Event.vec
  | [], pre, ip, m, _, _, hp, _ => by
    rw [aarch64_neon_byteswap_loop]
    refine ⟨m, ?_, ?_, ?_⟩
    · rw [if_neg (by simp only [List.length_nil]; omega)]
    · simp [fold4]
    · simp
  | [_], _, _, _, h, _, _, _ => by simp at h
  | [_, _], _, _, _, h, _, _, _ => by simp at h
  | [_, _, _], _, _, _, h, _, _, _ => by simp at h
  | w0 :: w1 :: w2 :: w3 :: rest, pre, ip, m, h, hw, hp, hz => by
    have h2 : rest.length % 4 = 0 := by
      simp only [List.length_cons] at h
      omega
    have hw0 : w0 < 2 ^ 32 := hw w0 (by simp)
    have hw1 : w1 < 2 ^ 32 := hw w1 (by simp)
    have hw2 : w2 < 2 ^ 32 := hw w2 (by simp)
    have hw3 : w3 < 2 ^ 32 := hw w3 (by simp)
    have hwr : ∀ w ∈ rest, w < 2 ^ 32 := fun w hm => hw w (by simp [hm])
    obtain ⟨hr, hz2, ht⟩ := NEON_MAIN_LOOP_regs m hz hw0 hw1 hw2 hw3
    have e2 : (pre ++ [w0, w1, w2, w3]).length = 2 * (ip + 2) := by simp; omega
    obtain ⟨m2, ih1, ih2, ih3⟩ := aarch64_neon_byteswap_loop_fold rest (pre ++ [w0, w1, w2, w3])
      (ip + 2) (NEON_MAIN_LOOP true m (w0, w1, w2, w3)) h2 hwr e2 hz2
    have e1 : (pre ++ [w0, w1, w2, w3]) ++ rest = pre ++ w0 :: w1 :: w2 :: w3 :: rest := by simp
    have e3 : 4 * ((pre ++ [w0, w1, w2, w3]).length + rest.length) =
        4 * (pre.length + (w0 :: w1 :: w2 :: w3 :: rest).length) := by
      simp only [List.length_append, List.length_cons, List.length_nil]
      omega
    rw [e1, e3] at ih1
    refine ⟨m2, ?_, ?_, ?_⟩
    · rw [aarch64_neon_byteswap_loop, if_pos (by simp only [List.length_cons]; omega)]
      rw [← hp, load4_append]
      exact ih1
    · rw [ih2, hr]
      simp [fold4]
    · rw [ih3, ht]
      have e4 : (w0 :: w1 :: w2 :: w3 :: rest).length / 4 = rest.length / 4 + 1 := by
        simp only [List.length_cons]
        omega
      rw [e4, List.replicate_succ]
      simp

theorem neon_regs_INIT_LOOP2 (m : Machine) (ctx : aarch64_neon_ctx) :
    neon_regs (NEON_INIT_LOOP2 m ctx) = ctx ∧ (NEON_INIT_LOOP2 m ctx).v 0 = ⟨0, 0⟩ ∧
      (NEON_INIT_LOOP2 m ctx).trace = m.trace ++ [Event.vec] := by
  refine ⟨?_, ?_, ?_⟩
  · simp [NEON_INIT_LOOP2, neon_regs, setv_v, emit_v, st1_neon, ld1_neon]
  · simp [NEON_INIT_LOOP2, setv_v, emit_v, VReg.eor]
  · simp [NEON_INIT_LOOP2, setv_trace, emit_trace]

/-- The aarch64_neon byteswap operation on a whole buffer of 32-bit words whose
count is a multiple of 4: it returns, the context is the fold of `neon_body`
over the byte-reversed words, and the trace is bracketed. -/
theorem neon_byteswap_fold (m : Machine) (ctx : aarch64_neon_ctx) (buf : List Nat)
    (h : buf.length % 4 = 0) (hw : ∀ w ∈ buf, w < 2 ^ 32) :
    ∃ r, fletcher_4_aarch64_neon_byteswap m ctx buf (4 * buf.length) = some r ∧
      r.ctx = fold4 neon_body ctx (buf.map BSWAP_32) ∧
      r.m.trace = m.trace ++ [Event.kfpu_begin, Event.vec] ++
        List.replicate (buf.length / 4) Event.vec ++ [Event.vec, Event.kfpu_end] := by
  obtain ⟨hr, hz, ht⟩ := neon_regs_INIT_LOOP2 (kfpu_begin m) ctx
  obtain ⟨m2, h1, h2, h3⟩ := aarch64_neon_byteswap_loop_fold buf [] 0
    (NEON_INIT_LOOP2 (kfpu_begin m) ctx) h hw (by simp) hz
  simp only [List.nil_append, List.length_nil, Nat.zero_add] at h1
  refine ⟨⟨(NEON_FINI_LOOP2 m2).2, kfpu_end (NEON_FINI_LOOP2 m2).1⟩, ?_, ?_, ?_⟩
  · unfold fletcher_4_aarch64_neon_byteswap
    dsimp only
    rw [h1]
  · show neon_regs m2 = _
    rw [h2, hr]
  · simp only [NEON_FINI_LOOP2, kfpu_end, emit_trace, h3, ht]
    simp [kfpu_begin, emit_trace]

/-! ## Init -/

theorem superscalar4_init_eq (ctx : superscalar_ctx) :
    fletcher_4_superscalar4_init ctx =
      ⟨⟨0, 0, 0, 0⟩, ⟨0, 0, 0, 0⟩, ⟨0, 0, 0, 0⟩, ⟨0, 0, 0, 0⟩⟩ := rfl

theorem neon_init_eq (ctx : aarch64_neon_ctx) :
    fletcher_4_aarch64_neon_init ctx = ⟨⟨0, 0⟩, ⟨0, 0⟩, ⟨0, 0⟩, ⟨0, 0⟩⟩ := rfl

theorem superscalar4_fini_init (ctx : superscalar_ctx) :
    fletcher_4_superscalar4_fini (fletcher_4_superscalar4_init ctx) = ⟨0, 0, 0, 0⟩ := by
  rw [superscalar4_init_eq]
  decide

theorem neon_fini_init (ctx : aarch64_neon_ctx) :
    fletcher_4_aarch64_neon_fini (fletcher_4_aarch64_neon_init ctx) = ⟨0, 0, 0, 0⟩ := by
  rw [neon_init_eq]
  decide

/-- The native operation from any context on a whole buffer of at least six
words: it returns, and the finalized words continue the serial cascade from
the words of the start. -/
theorem superscalar4_native_spec (m : Machine) (ctx : superscalar_ctx) (buf : List Nat)
    (h : buf.length % 4 = 0) (h6 : 6 ≤ buf.length) :
    ∃ r, fletcher_4_superscalar4_native m ctx buf (4 * buf.length) = some r ∧
      r.ctx = fold4 superscalar4_body ctx buf ∧
      fletcher_4_superscalar4_fini r.ctx =
        spec_fletcher4_from (fletcher_4_superscalar4_fini ctx) buf := by
  obtain ⟨r, hr, hc⟩ := native_ctx_some (native_ctx_fold m ctx buf h h6)
  refine ⟨r, hr, hc, ?_⟩
  rw [hc]
  exact fold4_spec fletcher_4_superscalar4_fini superscalar4_body superscalar4_fini_body buf ctx h

/-- The byteswap operation from any context on a whole buffer: it returns, and
the finalized words continue the serial cascade over the byte-reversed words. -/
theorem superscalar4_byteswap_spec (ctx : superscalar_ctx) (buf : List Nat)
    (h : buf.length % 4 = 0) :
    ∃ c, fletcher_4_superscalar4_byteswap ctx buf (4 * buf.length) = some c ∧
      fletcher_4_superscalar4_fini c =
        spec_fletcher4_from (fletcher_4_superscalar4_fini ctx) (buf.map BSWAP_32) := by
  refine ⟨_, byteswap_fold ctx buf h, ?_⟩
  exact fold4_spec fletcher_4_superscalar4_fini superscalar4_body superscalar4_fini_body _ ctx
    (by simpa using h)

/-- The aarch64_neon byteswap operation from any context on a whole buffer of
32-bit words: it returns, and the finalized words continue the serial cascade
over the byte-reversed words. -/
theorem neon_byteswap_spec (m : Machine) (ctx : aarch64_neon_ctx) (buf : List Nat)
    (h : buf.length % 4 = 0) (hw : ∀ w ∈ buf, w < 2 ^ 32) :
    ∃ r, fletcher_4_aarch64_neon_byteswap m ctx buf (4 * buf.length) = some r ∧
      fletcher_4_aarch64_neon_fini r.ctx =
        spec_fletcher4_from (fletcher_4_aarch64_neon_fini ctx) (buf.map BSWAP_32) := by
  obtain ⟨r, hr, hc, _⟩ := neon_byteswap_fold m ctx buf h hw
  refine ⟨r, hr, ?_⟩
  rw [hc]
  exact fold4_spec fletcher_4_aarch64_neon_fini neon_body neon_fini_body _ ctx (by simpa using h)

/-! ## The claims -/

/-- An optional result that exists and has a property maps to the value of that property. -/
theorem map_eq_some_of_exists {α β : Type} {o : Option α} {f : α → β} {v : β}
    (h : ∃ r, o = some r ∧ f r = v) : o.map f = some v := by
  obtain ⟨r, hr, hv⟩ := h
  rw [hr, Option.map_some', hv]

/-- On every buffer of at least six words whose word count is a multiple of 4,
init, then the native operation over the whole buffer, then fini of the
superscalar4 backend returns normally and yields the four words of the
canonical serial Fletcher4 cascade over the same words in order. -/
theorem native_is_serial_of_six (m : Machine) (ctx0 : superscalar_ctx)
    (buf : List Nat) (h : buf.length % 4 = 0) (h6 : 6 ≤ buf.length) :
    ∃ r, fletcher_4_superscalar4_native m (fletcher_4_superscalar4_init ctx0) buf
        (4 * buf.length) = some r ∧
      fletcher_4_superscalar4_fini r.ctx = spec_fletcher4 buf := by
  obtain ⟨r, hr, _, hf⟩ := superscalar4_native_spec m (fletcher_4_superscalar4_init ctx0) buf
    h h6
  refine ⟨r, hr, ?_⟩
  rw [hf, superscalar4_fini_init]
  rfl

/-- C1 (the code departs from the claim): from the context left by init, the
superscalar4 native operation on the 16-byte buffer [1,2,3,4], and on the
empty buffer, reads out of bounds and returns nothing: the reads of ip2[4]
and ip3[2] made for the printk calls lie past the buffer.  The serial
Fletcher4 value of [1,2,3,4] is (10,20,35,56), which the operation does give
when two more readable words follow the 16-byte buffer; on the 32-byte buffer
[1,..,8] it gives the serial value. -/
theorem C1_superscalar4_native_overreads :
    (fletcher_4_superscalar4_native Machine.zero
        (fletcher_4_superscalar4_init ⟨⟨0, 0, 0, 0⟩, ⟨0, 0, 0, 0⟩, ⟨0, 0, 0, 0⟩, ⟨0, 0, 0, 0⟩⟩)
        [1, 2, 3, 4] 16).isSome = false ∧
      (fletcher_4_superscalar4_native Machine.zero
        (fletcher_4_superscalar4_init ⟨⟨0, 0, 0, 0⟩, ⟨0, 0, 0, 0⟩, ⟨0, 0, 0, 0⟩, ⟨0, 0, 0, 0⟩⟩)
        [] 0).isSome = false ∧
      spec_fletcher4 [1, 2, 3, 4] = ⟨10, 20, 35, 56⟩ ∧
      (fletcher_4_superscalar4_native Machine.zero
        (fletcher_4_superscalar4_init ⟨⟨0, 0, 0, 0⟩, ⟨0, 0, 0, 0⟩, ⟨0, 0, 0, 0⟩, ⟨0, 0, 0, 0⟩⟩)
        [1, 2, 3, 4, 0, 0] 16).map (fun r => fletcher_4_superscalar4_fini r.ctx) =
        some ⟨10, 20, 35, 56⟩ ∧
      (fletcher_4_superscalar4_native Machine.zero
        (fletcher_4_superscalar4_init ⟨⟨0, 0, 0, 0⟩, ⟨0, 0, 0, 0⟩, ⟨0, 0, 0, 0⟩, ⟨0, 0, 0, 0⟩⟩)
        [1, 2, 3, 4, 5, 6, 7, 8] 32).map (fun r => fletcher_4_superscalar4_fini r.ctx) =
        some (spec_fletcher4 [1, 2, 3, 4, 5, 6, 7, 8]) := by
  refine ⟨?_, ?_, by decide, ?_, ?_⟩
  · rw [native_none_of_short _ _ _ (by decide)]
    rfl
  · rw [native_none_of_short _ _ _ (by decide)]
    rfl
  · simp [superscalar4_init_eq, fletcher_4_superscalar4_native, native_printk_reads, load64,
      superscalar4_native_loop, superscalar4_neon_loop, load4, superscalar4_body, add64,
      fletcher_4_superscalar4_fini, sub64, mul64, ZIO_SET_CHECKSUM]
  · exact map_eq_some_of_exists (native_is_serial_of_six Machine.zero _
      [1, 2, 3, 4, 5, 6, 7, 8] (by decide) (by decide))

/-- C2: for every buffer of 32-bit words whose word count is a multiple of 4,
init, byteswap compute and fini of the aarch64_neon backend yield the same four
checksum words as init, byteswap compute and fini of the superscalar4 backend. -/
theorem C2_byteswap_cross_backend (m : Machine) (cn : aarch64_neon_ctx) (cs : superscalar_ctx)
    (buf : List Nat) (h : buf.length % 4 = 0) (hw : ∀ w ∈ buf, w < 2 ^ 32) :
    ∃ rn rs,
      fletcher_4_aarch64_neon_byteswap m (fletcher_4_aarch64_neon_init cn) buf
          (4 * buf.length) = some rn ∧
        fletcher_4_superscalar4_byteswap (fletcher_4_superscalar4_init cs) buf
          (4 * buf.length) = some rs ∧
        fletcher_4_aarch64_neon_fini rn.ctx = fletcher_4_superscalar4_fini rs := by
  obtain ⟨rn, hn, hfn⟩ := neon_byteswap_spec m (fletcher_4_aarch64_neon_init cn) buf h hw
  obtain ⟨rs, hs, hfs⟩ := superscalar4_byteswap_spec (fletcher_4_superscalar4_init cs) buf h
  refine ⟨rn, rs, hn, hs, ?_⟩
  rw [hfn, hfs, neon_fini_init, superscalar4_fini_init]

/-- Witness of C2 on the buffer [0x01020304, 2, 3, 0xffffffff]. -/
theorem C2_byteswap_cross_backend_witness :
    [16909060, 2, 3, 4294967295].length % 4 = 0 ∧
      (∀ w ∈ [16909060, 2, 3, 4294967295], w < 2 ^ 32) ∧
      ∃ rn rs,
        fletcher_4_aarch64_neon_byteswap Machine.zero
            (fletcher_4_aarch64_neon_init ⟨⟨1, 2⟩, ⟨3, 4⟩, ⟨5, 6⟩, ⟨7, 8⟩⟩)
            [16909060, 2, 3, 4294967295] (4 * [16909060, 2, 3, 4294967295].length) = some rn ∧
          fletcher_4_superscalar4_byteswap
            (fletcher_4_superscalar4_init ⟨⟨1, 2, 3, 4⟩, ⟨1, 2, 3, 4⟩, ⟨1, 2, 3, 4⟩, ⟨1, 2, 3, 4⟩⟩)
            [16909060, 2, 3, 4294967295] (4 * [16909060, 2, 3, 4294967295].length) = some rs ∧
          fletcher_4_aarch64_neon_fini rn.ctx = fletcher_4_superscalar4_fini rs :=
  ⟨by decide, by decide,
    C2_byteswap_cross_backend Machine.zero ⟨⟨1, 2⟩, ⟨3, 4⟩, ⟨5, 6⟩, ⟨7, 8⟩⟩
      ⟨⟨1, 2, 3, 4⟩, ⟨1, 2, 3, 4⟩, ⟨1, 2, 3, 4⟩, ⟨1, 2, 3, 4⟩⟩ [16909060, 2, 3, 4294967295]
      (by decide) (by decide)⟩

/-- C3 (the code departs from the claim): on the 16-byte buffer [1,2,3,4], from
the context left by init and with every vector register zero, the aarch64_neon
native operation over-reads the buffer (it returns nothing when the memory ends
with the buffer); when 16 zero bytes follow the buffer it returns the words
(0, 14, 2^64 - 3, 2^64 - 16), while the superscalar4 native operation on the
same memory and size returns (10, 20, 35, 56).  On the 32-byte buffer
[1,..,8] followed by 16 zero bytes the two return (33, 54, 4, 132) and
(36, 120, 330, 792). -/
theorem C3_neon_native_differs :
    (fletcher_4_aarch64_neon_native Machine.zero
        (fletcher_4_aarch64_neon_init ⟨⟨0, 0⟩, ⟨0, 0⟩, ⟨0, 0⟩, ⟨0, 0⟩⟩)
        [1, 2, 3, 4] 16).isSome = false ∧
      (fletcher_4_aarch64_neon_native Machine.zero
        (fletcher_4_aarch64_neon_init ⟨⟨0, 0⟩, ⟨0, 0⟩, ⟨0, 0⟩, ⟨0, 0⟩⟩)
        [1, 2, 3, 4, 0, 0, 0, 0] 16).map (fun r => fletcher_4_aarch64_neon_fini r.ctx) =
        some ⟨0, 14, 2 ^ 64 - 3, 2 ^ 64 - 16⟩ ∧
      (fletcher_4_superscalar4_native Machine.zero
        (fletcher_4_superscalar4_init ⟨⟨0, 0, 0, 0⟩, ⟨0, 0, 0, 0⟩, ⟨0, 0, 0, 0⟩, ⟨0, 0, 0, 0⟩⟩)
        [1, 2, 3, 4, 0, 0, 0, 0] 16).map (fun r => fletcher_4_superscalar4_fini r.ctx) =
        some ⟨10, 20, 35, 56⟩ ∧
      (fletcher_4_aarch64_neon_native Machine.zero
        (fletcher_4_aarch64_neon_init ⟨⟨0, 0⟩, ⟨0, 0⟩, ⟨0, 0⟩, ⟨0, 0⟩⟩)
        [1, 2, 3, 4, 5, 6, 7, 8, 0, 0, 0, 0] 32).map
          (fun r => fletcher_4_aarch64_neon_fini r.ctx) = some ⟨33, 54, 4, 132⟩ ∧
      (fletcher_4_superscalar4_native Machine.zero
        (fletcher_4_superscalar4_init ⟨⟨0, 0, 0, 0⟩, ⟨0, 0, 0, 0⟩, ⟨0, 0, 0, 0⟩, ⟨0, 0, 0, 0⟩⟩)
        [1, 2, 3, 4, 5, 6, 7, 8, 0, 0, 0, 0] 32).map
          (fun r => fletcher_4_superscalar4_fini r.ctx) = some ⟨36, 120, 330, 792⟩ := by
  refine ⟨?_, ?_, ?_, ?_, ?_⟩
  · simp [fletcher_4_aarch64_neon_native, aarch64_neon_native_loop, load4]
  · simp [neon_init_eq, fletcher_4_aarch64_neon_native, aarch64_neon_native_loop, load4,
      NEON_FINI_LOOP1, NEON_SUPERSCALAR8, NEON_INIT_LOOP, kfpu_begin, kfpu_end, emit_v, setv_v,
      Machine.zero, st1_neon, ld1_neon, VReg.add2d, VReg.uaddw, VReg.uaddw2, VReg.of4s, VReg.e0,
      VReg.e1, VReg.e2, VReg.e3, add64, fletcher_4_aarch64_neon_fini, sub64, mul64,
      ZIO_SET_CHECKSUM]
  · simp [superscalar4_init_eq, fletcher_4_superscalar4_native, native_printk_reads, load64,
      superscalar4_native_loop, superscalar4_neon_loop, load4, superscalar4_body, add64,
      fletcher_4_superscalar4_fini, sub64, mul64, ZIO_SET_CHECKSUM]
  · simp [neon_init_eq, fletcher_4_aarch64_neon_native, aarch64_neon_native_loop, load4,
      NEON_FINI_LOOP1, NEON_SUPERSCALAR8, NEON_INIT_LOOP, kfpu_begin, kfpu_end, emit_v, setv_v,
      Machine.zero, st1_neon, ld1_neon, VReg.add2d, VReg.uaddw, VReg.uaddw2, VReg.of4s, VReg.e0,
      VReg.e1, VReg.e2, VReg.e3, add64, fletcher_4_aarch64_neon_fini, sub64, mul64,
      ZIO_SET_CHECKSUM]
  · simp [superscalar4_init_eq, fletcher_4_superscalar4_native, native_printk_reads, load64,
      superscalar4_native_loop, superscalar4_neon_loop, load4, superscalar4_body, add64,
      fletcher_4_superscalar4_fini, sub64, mul64, ZIO_SET_CHECKSUM]

/-- On every buffer of at least six words whose word count is a multiple of 4,
from every starting context, the superscalar4 byteswap operation on the buffer
and the superscalar4 native operation on the copy with every 32-bit word
byte-reversed both return normally and leave exactly the same context. -/
theorem byteswap_is_native_on_swapped_of_six (m : Machine) (ctx : superscalar_ctx)
    (buf : List Nat) (h : buf.length % 4 = 0) (h6 : 6 ≤ buf.length) :
    ∃ c r, fletcher_4_superscalar4_byteswap ctx buf (4 * buf.length) = some c ∧
      fletcher_4_superscalar4_native m ctx (buf.map BSWAP_32) (4 * buf.length) = some r ∧
      r.ctx = c := by
  have hn := native_ctx_fold m ctx (buf.map BSWAP_32) (by simpa using h) (by simpa using h6)
  rw [List.length_map] at hn
  obtain ⟨r, hr, hc⟩ := native_ctx_some hn
  exact ⟨_, r, byteswap_fold ctx buf h, hr, hc⟩

/-- C4 (the code departs from the claim): on the 16-byte buffer
[0x01020304, 2, 3, 0xffffffff] the superscalar4 byteswap operation returns
normally, while the native operation on the byte-reversed copy reads out of
bounds (the reads made for the printk calls) and leaves no state to compare;
on the 32-byte buffer [0x01020304, 2, 3, 0xffffffff, 5, 6, 7, 8] the two leave
the same context. -/
theorem C4_native_on_swapped_overreads :
    (fletcher_4_superscalar4_byteswap
        ⟨⟨1, 2, 3, 4⟩, ⟨5, 6, 7, 8⟩, ⟨9, 10, 11, 12⟩, ⟨13, 14, 15, 16⟩⟩
        [16909060, 2, 3, 4294967295] 16).isSome = true ∧
      (fletcher_4_superscalar4_native Machine.zero
        ⟨⟨1, 2, 3, 4⟩, ⟨5, 6, 7, 8⟩, ⟨9, 10, 11, 12⟩, ⟨13, 14, 15, 16⟩⟩
        ([16909060, 2, 3, 4294967295].map BSWAP_32) 16).isSome = false ∧
      ∃ c r,
        fletcher_4_superscalar4_byteswap
          ⟨⟨1, 2, 3, 4⟩, ⟨5, 6, 7, 8⟩, ⟨9, 10, 11, 12⟩, ⟨13, 14, 15, 16⟩⟩
          [16909060, 2, 3, 4294967295, 5, 6, 7, 8] 32 = some c ∧
        fletcher_4_superscalar4_native Machine.zero
          ⟨⟨1, 2, 3, 4⟩, ⟨5, 6, 7, 8⟩, ⟨9, 10, 11, 12⟩, ⟨13, 14, 15, 16⟩⟩
          ([16909060, 2, 3, 4294967295, 5, 6, 7, 8].map BSWAP_32) 32 = some r ∧
        r.ctx = c := by
  refine ⟨?_, ?_, ?_⟩
  · have hb := byteswap_fold ⟨⟨1, 2, 3, 4⟩, ⟨5, 6, 7, 8⟩, ⟨9, 10, 11, 12⟩, ⟨13, 14, 15, 16⟩⟩
      [16909060, 2, 3, 4294967295] (by decide)
    have hb2 : fletcher_4_superscalar4_byteswap
        ⟨⟨1, 2, 3, 4⟩, ⟨5, 6, 7, 8⟩, ⟨9, 10, 11, 12⟩, ⟨13, 14, 15, 16⟩⟩
        [16909060, 2, 3, 4294967295] 16 = _ := hb
    rw [hb2]
    rfl
  · rw [native_none_of_short _ _ _ (by decide)]
    rfl
  · exact byteswap_is_native_on_swapped_of_six Machine.zero
      ⟨⟨1, 2, 3, 4⟩, ⟨5, 6, 7, 8⟩, ⟨9, 10, 11, 12⟩, ⟨13, 14, 15, 16⟩⟩
      [16909060, 2, 3, 4294967295, 5, 6, 7, 8] (by decide) (by decide)

/-- The superscalar4 byteswap operation is incremental: from every starting
context, computing on B1 and then on B2, each holding a multiple of 4 words,
leaves the same context as one call on B1 followed by B2. -/
theorem byteswap_incremental (ctx : superscalar_ctx) (B1 B2 : List Nat)
    (h1 : B1.length % 4 = 0) (h2 : B2.length % 4 = 0) :
    ∃ c1 c2,
      fletcher_4_superscalar4_byteswap ctx B1 (4 * B1.length) = some c1 ∧
      fletcher_4_superscalar4_byteswap c1 B2 (4 * B2.length) = some c2 ∧
      fletcher_4_superscalar4_byteswap ctx (B1 ++ B2) (4 * (B1 ++ B2).length) = some c2 := by
  have h12 : (B1 ++ B2).length % 4 = 0 := by
    rw [List.length_append]
    omega
  refine ⟨_, _, byteswap_fold ctx B1 h1, byteswap_fold _ B2 h2, ?_⟩
  rw [byteswap_fold ctx (B1 ++ B2) h12, List.map_append,
    fold4_append superscalar4_body _ _ ctx (by simpa using h1)]

/-- The superscalar4 native operation is incremental on buffers of at least six
words: from every starting context and whatever the machine state at each
call, computing on B1 and then on B2, each holding a multiple of 4 words,
leaves the same context as one call on B1 followed by B2. -/
theorem native_incremental_of_six (m1 m2 m3 : Machine) (ctx : superscalar_ctx)
    (B1 B2 : List Nat) (h1 : B1.length % 4 = 0) (h2 : B2.length % 4 = 0)
    (k1 : 6 ≤ B1.length) (k2 : 6 ≤ B2.length) :
    ∃ r1 r2 r,
      fletcher_4_superscalar4_native m1 ctx B1 (4 * B1.length) = some r1 ∧
      fletcher_4_superscalar4_native m2 r1.ctx B2 (4 * B2.length) = some r2 ∧
      fletcher_4_superscalar4_native m3 ctx (B1 ++ B2) (4 * (B1 ++ B2).length) = some r ∧
      r2.ctx = r.ctx ∧
      fletcher_4_superscalar4_fini r2.ctx = fletcher_4_superscalar4_fini r.ctx := by
  have h12 : (B1 ++ B2).length % 4 = 0 := by
    rw [List.length_append]
    omega
  have k12 : 6 ≤ (B1 ++ B2).length := by
    rw [List.length_append]
    omega
  obtain ⟨r1, e1, c1, _⟩ := superscalar4_native_spec m1 ctx B1 h1 k1
  obtain ⟨r2, e2, c2, _⟩ := superscalar4_native_spec m2 r1.ctx B2 h2 k2
  obtain ⟨r, e, c, _⟩ := superscalar4_native_spec m3 ctx (B1 ++ B2) h12 k12
  have hc : r2.ctx = r.ctx := by
    rw [c2, c, c1, fold4_append superscalar4_body B1 B2 ctx h1]
  exact ⟨r1, r2, r, e1, e2, e, hc, by rw [hc]⟩

/-- C5 (the code departs from the claim): with B1 = [1,2,3,4] and
B2 = [5,..,12], the superscalar4 native operation on B1 reads out of bounds
(the reads made for the printk calls) and returns nothing, while one native
call on B1 followed by B2 returns normally, so the two-call run does not leave
the context of the one-call run.  The byteswap operation on the same B1 and B2
is incremental, and so is the native operation on B1 = [1,..,8] and
B2 = [9,..,16]. -/
theorem C5_native_incremental_overreads :
    (fletcher_4_superscalar4_native Machine.zero
        ⟨⟨1, 2, 3, 4⟩, ⟨5, 6, 7, 8⟩, ⟨9, 10, 11, 12⟩, ⟨13, 14, 15, 16⟩⟩
        [1, 2, 3, 4] 16).isSome = false ∧
      (fletcher_4_superscalar4_native Machine.zero
        ⟨⟨1, 2, 3, 4⟩, ⟨5, 6, 7, 8⟩, ⟨9, 10, 11, 12⟩, ⟨13, 14, 15, 16⟩⟩
        ([1, 2, 3, 4] ++ [5, 6, 7, 8, 9, 10, 11, 12]) 48).isSome = true ∧
      (∃ c1 c2,
        fletcher_4_superscalar4_byteswap
          ⟨⟨1, 2, 3, 4⟩, ⟨5, 6, 7, 8⟩, ⟨9, 10, 11, 12⟩, ⟨13, 14, 15, 16⟩⟩
          [1, 2, 3, 4] 16 = some c1 ∧
        fletcher_4_superscalar4_byteswap c1 [5, 6, 7, 8, 9, 10, 11, 12] 32 = some c2 ∧
        fletcher_4_superscalar4_byteswap
          ⟨⟨1, 2, 3, 4⟩, ⟨5, 6, 7, 8⟩, ⟨9, 10, 11, 12⟩, ⟨13, 14, 15, 16⟩⟩
          ([1, 2, 3, 4] ++ [5, 6, 7, 8, 9, 10, 11, 12]) 48 = some c2) ∧
      (∃ r1 r2 r,
        fletcher_4_superscalar4_native Machine.zero
          ⟨⟨1, 2, 3, 4⟩, ⟨5, 6, 7, 8⟩, ⟨9, 10, 11, 12⟩, ⟨13, 14, 15, 16⟩⟩
          [1, 2, 3, 4, 5, 6, 7, 8] 32 = some r1 ∧
        fletcher_4_superscalar4_native Machine.zero r1.ctx
          [9, 10, 11, 12, 13, 14, 15, 16] 32 = some r2 ∧
        fletcher_4_superscalar4_native Machine.zero
          ⟨⟨1, 2, 3, 4⟩, ⟨5, 6, 7, 8⟩, ⟨9, 10, 11, 12⟩, ⟨13, 14, 15, 16⟩⟩
          ([1, 2, 3, 4, 5, 6, 7, 8] ++ [9, 10, 11, 12, 13, 14, 15, 16]) 64 = some r ∧
        r2.ctx = r.ctx ∧
        fletcher_4_superscalar4_fini r2.ctx = fletcher_4_superscalar4_fini r.ctx) := by
  refine ⟨?_, ?_, ?_, ?_⟩
  · rw [native_none_of_short _ _ _ (by decide)]
    rfl
  · obtain ⟨r, hr, _⟩ := superscalar4_native_spec Machine.zero
      ⟨⟨1, 2, 3, 4⟩, ⟨5, 6, 7, 8⟩, ⟨9, 10, 11, 12⟩, ⟨13, 14, 15, 16⟩⟩
      ([1, 2, 3, 4] ++ [5, 6, 7, 8, 9, 10, 11, 12]) (by decide) (by decide)
    have hr2 : fletcher_4_superscalar4_native Machine.zero
        ⟨⟨1, 2, 3, 4⟩, ⟨5, 6, 7, 8⟩, ⟨9, 10, 11, 12⟩, ⟨13, 14, 15, 16⟩⟩
        ([1, 2, 3, 4] ++ [5, 6, 7, 8, 9, 10, 11, 12]) 48 = some r := hr
    rw [hr2]
    rfl
  · exact byteswap_incremental
      ⟨⟨1, 2, 3, 4⟩, ⟨5, 6, 7, 8⟩, ⟨9, 10, 11, 12⟩, ⟨13, 14, 15, 16⟩⟩
      [1, 2, 3, 4] [5, 6, 7, 8, 9, 10, 11, 12] (by decide) (by decide)
  · exact native_incremental_of_six Machine.zero Machine.zero Machine.zero
      ⟨⟨1, 2, 3, 4⟩, ⟨5, 6, 7, 8⟩, ⟨9, 10, 11, 12⟩, ⟨13, 14, 15, 16⟩⟩
      [1, 2, 3, 4, 5, 6, 7, 8] [9, 10, 11, 12, 13, 14, 15, 16]
      (by decide) (by decide) (by decide) (by decide)

/-- C6: for both backends, fini applied directly to the context produced by
init, with no compute call in between, yields the checksum (0,0,0,0). -/
theorem C6_zero_length_identity (cs : superscalar_ctx) (cn : aarch64_neon_ctx) :
    fletcher_4_superscalar4_fini (fletcher_4_superscalar4_init cs) = ⟨0, 0, 0, 0⟩ ∧
      fletcher_4_aarch64_neon_fini (fletcher_4_aarch64_neon_init cn) = ⟨0, 0, 0, 0⟩ :=
  ⟨superscalar4_fini_init cs, neon_fini_init cn⟩

/-- C7 (the code departs from the claim): two runs of the aarch64_neon native
operation from the same context (the one left by init) on the same memory
([1,2,3,4] followed by 16 zero bytes, size 16) end in different contexts when
only the prior content of vector register v7 differs (zero in the first run,
lane 0 equal to 1 in the second). -/
theorem C7_neon_native_depends_on_registers :
    (fletcher_4_aarch64_neon_native Machine.zero
        (fletcher_4_aarch64_neon_init ⟨⟨0, 0⟩, ⟨0, 0⟩, ⟨0, 0⟩, ⟨0, 0⟩⟩)
        [1, 2, 3, 4, 0, 0, 0, 0] 16).map (fun r => r.ctx) =
        some ⟨⟨0, 0⟩, ⟨3, 4⟩, ⟨1, 2⟩, ⟨0, 0⟩⟩ ∧
      (fletcher_4_aarch64_neon_native (Machine.zero.setv 7 ⟨1, 0⟩)
        (fletcher_4_aarch64_neon_init ⟨⟨0, 0⟩, ⟨0, 0⟩, ⟨0, 0⟩, ⟨0, 0⟩⟩)
        [1, 2, 3, 4, 0, 0, 0, 0] 16).map (fun r => r.ctx) =
        some ⟨⟨0, 0⟩, ⟨3, 4⟩, ⟨2, 2⟩, ⟨0, 0⟩⟩ := by
  constructor <;>
  simp [neon_init_eq, fletcher_4_aarch64_neon_native, aarch64_neon_native_loop, load4,
    NEON_FINI_LOOP1, NEON_SUPERSCALAR8, NEON_INIT_LOOP, kfpu_begin, kfpu_end, emit_v, setv_v,
    Machine.zero, st1_neon, ld1_neon, VReg.add2d, VReg.uaddw, VReg.uaddw2, VReg.of4s, VReg.e0,
    VReg.e1, VReg.e2, VReg.e3, add64]

/-- C8: whatever the prior contents of the context, the superscalar4 init
leaves all 16 lanes equal to 0 and the aarch64_neon init leaves all 8 lanes
equal to 0; init is idempotent and its result does not depend on the prior
contents. -/
theorem C8_init_overwrites (c c2 : superscalar_ctx) (n n2 : aarch64_neon_ctx) :
    (fletcher_4_superscalar4_init c).lanes = List.replicate 16 0 ∧
      (fletcher_4_aarch64_neon_init n).lanes = List.replicate 8 0 ∧
      fletcher_4_superscalar4_init (fletcher_4_superscalar4_init c) =
        fletcher_4_superscalar4_init c ∧
      fletcher_4_aarch64_neon_init (fletcher_4_aarch64_neon_init n) =
        fletcher_4_aarch64_neon_init n ∧
      fletcher_4_superscalar4_init c = fletcher_4_superscalar4_init c2 ∧
      fletcher_4_aarch64_neon_init n = fletcher_4_aarch64_neon_init n2 := by
  refine ⟨?_, ?_, ?_, ?_, ?_, ?_⟩
  · rw [superscalar4_init_eq]; rfl
  · rw [neon_init_eq]; rfl
  · rw [superscalar4_init_eq, superscalar4_init_eq]
  · rw [neon_init_eq, neon_init_eq]
  · rw [superscalar4_init_eq c, superscalar4_init_eq c2]
  · rw [neon_init_eq n, neon_init_eq n2]

/-- Counterexample to C9: the contexts with every lane equal to 1 are not what
init leaves, yet fini returns checksum words for them, (4,10,20,35) for
superscalar4 and (2,3,4,5) for aarch64_neon; and the byteswap operations on
those same contexts, which fini has left as they were, return normally with an
updated context. -/
theorem C9_counterexample :
    fletcher_4_superscalar4_init ⟨⟨1, 1, 1, 1⟩, ⟨1, 1, 1, 1⟩, ⟨1, 1, 1, 1⟩, ⟨1, 1, 1, 1⟩⟩ ≠
        ⟨⟨1, 1, 1, 1⟩, ⟨1, 1, 1, 1⟩, ⟨1, 1, 1, 1⟩, ⟨1, 1, 1, 1⟩⟩ ∧
      fletcher_4_superscalar4_fini ⟨⟨1, 1, 1, 1⟩, ⟨1, 1, 1, 1⟩, ⟨1, 1, 1, 1⟩, ⟨1, 1, 1, 1⟩⟩ =
        ⟨4, 10, 20, 35⟩ ∧
      fletcher_4_aarch64_neon_fini ⟨⟨1, 1⟩, ⟨1, 1⟩, ⟨1, 1⟩, ⟨1, 1⟩⟩ = ⟨2, 3, 4, 5⟩ ∧
      fletcher_4_superscalar4_byteswap
          ⟨⟨1, 1, 1, 1⟩, ⟨1, 1, 1, 1⟩, ⟨1, 1, 1, 1⟩, ⟨1, 1, 1, 1⟩⟩ [0, 0, 0, 0] 16 =
        some ⟨⟨1, 1, 1, 1⟩, ⟨2, 2, 2, 2⟩, ⟨3, 3, 3, 3⟩, ⟨4, 4, 4, 4⟩⟩ ∧
      (fletcher_4_aarch64_neon_byteswap Machine.zero ⟨⟨1, 1⟩, ⟨1, 1⟩, ⟨1, 1⟩, ⟨1, 1⟩⟩
          [0, 0, 0, 0] 16).map (fun r => r.ctx) =
        some ⟨⟨1, 1⟩, ⟨3, 3⟩, ⟨6, 6⟩, ⟨10, 10⟩⟩ := by
  refine ⟨?_, by decide, by decide, ?_, ?_⟩
  · rw [superscalar4_init_eq]
    decide
  · simp [fletcher_4_superscalar4_byteswap, superscalar4_byteswap_loop, load4, superscalar4_body,
      add64, BSWAP_32]
  · simp [fletcher_4_aarch64_neon_byteswap, aarch64_neon_byteswap_loop, load4, NEON_FINI_LOOP2,
      NEON_MAIN_LOOP, NEON_INIT_LOOP2, kfpu_begin, kfpu_end, emit_v, setv_v, Machine.zero,
      st1_neon, ld1_neon, VReg.add2d, VReg.zip1, VReg.zip2, VReg.rev32, VReg.eor, VReg.of4s,
      VReg.e0, VReg.e1, VReg.e2, VReg.e3, add64, BSWAP_32]

/-- C9 as amended: for every context contents, whether or not they come from
init and whether or not fini has already been applied to them, and every
buffer of 32-bit words whose count is a multiple of 4, the superscalar4
byteswap operation and the aarch64_neon byteswap operation return normally,
and so does the superscalar4 native operation when the buffer has at least
six words; the words fini gives for the resulting context are the serial
cascade continued from the words fini gives for the starting context. -/
theorem C9_compute_on_any_context (m : Machine) (cs : superscalar_ctx) (cn : aarch64_neon_ctx)
    (buf bufn : List Nat) (h : buf.length % 4 = 0) (hw : ∀ w ∈ buf, w < 2 ^ 32)
    (hn : bufn.length % 4 = 0) (h6 : 6 ≤ bufn.length) :
    (∃ r, fletcher_4_superscalar4_native m cs bufn (4 * bufn.length) = some r ∧
        fletcher_4_superscalar4_fini r.ctx =
          spec_fletcher4_from (fletcher_4_superscalar4_fini cs) bufn) ∧
      (∃ c, fletcher_4_superscalar4_byteswap cs buf (4 * buf.length) = some c ∧
        fletcher_4_superscalar4_fini c =
          spec_fletcher4_from (fletcher_4_superscalar4_fini cs) (buf.map BSWAP_32)) ∧
      (∃ r, fletcher_4_aarch64_neon_byteswap m cn buf (4 * buf.length) = some r ∧
        fletcher_4_aarch64_neon_fini r.ctx =
          spec_fletcher4_from (fletcher_4_aarch64_neon_fini cn) (buf.map BSWAP_32)) := by
  refine ⟨?_, superscalar4_byteswap_spec cs buf h, neon_byteswap_spec m cn buf h hw⟩
  obtain ⟨r, hr, _, hf⟩ := superscalar4_native_spec m cs bufn hn h6
  exact ⟨r, hr, hf⟩

/-- Witness of the amended C9 on contexts with every lane 1, the buffer
[1,2,3,4] for the byteswap operations and [1,..,8] for the native one. -/
theorem C9_compute_on_any_context_witness :
    [1, 2, 3, 4].length % 4 = 0 ∧ (∀ w ∈ [1, 2, 3, 4], w < 2 ^ 32) ∧
      [1, 2, 3, 4, 5, 6, 7, 8].length % 4 = 0 ∧ 6 ≤ [1, 2, 3, 4, 5, 6, 7, 8].length ∧
      ((∃ r, fletcher_4_superscalar4_native Machine.zero
            ⟨⟨1, 1, 1, 1⟩, ⟨1, 1, 1, 1⟩, ⟨1, 1, 1, 1⟩, ⟨1, 1, 1, 1⟩⟩ [1, 2, 3, 4, 5, 6, 7, 8]
            (4 * [1, 2, 3, 4, 5, 6, 7, 8].length) = some r ∧
          fletcher_4_superscalar4_fini r.ctx =
            spec_fletcher4_from (fletcher_4_superscalar4_fini
              ⟨⟨1, 1, 1, 1⟩, ⟨1, 1, 1, 1⟩, ⟨1, 1, 1, 1⟩, ⟨1, 1, 1, 1⟩⟩)
              [1, 2, 3, 4, 5, 6, 7, 8]) ∧
        (∃ c, fletcher_4_superscalar4_byteswap
            ⟨⟨1, 1, 1, 1⟩, ⟨1, 1, 1, 1⟩, ⟨1, 1, 1, 1⟩, ⟨1, 1, 1, 1⟩⟩ [1, 2, 3, 4]
            (4 * [1, 2, 3, 4].length) = some c ∧
          fletcher_4_superscalar4_fini c =
            spec_fletcher4_from (fletcher_4_superscalar4_fini
              ⟨⟨1, 1, 1, 1⟩, ⟨1, 1, 1, 1⟩, ⟨1, 1, 1, 1⟩, ⟨1, 1, 1, 1⟩⟩)
              ([1, 2, 3, 4].map BSWAP_32)) ∧
        (∃ r, fletcher_4_aarch64_neon_byteswap Machine.zero ⟨⟨1, 1⟩, ⟨1, 1⟩, ⟨1, 1⟩, ⟨1, 1⟩⟩
            [1, 2, 3, 4] (4 * [1, 2, 3, 4].length) = some r ∧
          fletcher_4_aarch64_neon_fini r.ctx =
            spec_fletcher4_from (fletcher_4_aarch64_neon_fini ⟨⟨1, 1⟩, ⟨1, 1⟩, ⟨1, 1⟩, ⟨1, 1⟩⟩)
              ([1, 2, 3, 4].map BSWAP_32))) :=
  ⟨by decide, by decide, by decide, by decide,
    C9_compute_on_any_context Machine.zero
      ⟨⟨1, 1, 1, 1⟩, ⟨1, 1, 1, 1⟩, ⟨1, 1, 1, 1⟩, ⟨1, 1, 1, 1⟩⟩
      ⟨⟨1, 1⟩, ⟨1, 1⟩, ⟨1, 1⟩, ⟨1, 1⟩⟩ [1, 2, 3, 4] [1, 2, 3, 4, 5, 6, 7, 8]
      (by decide) (by decide) (by decide) (by decide)⟩

/-- C10 (the code departs from the claim): on the 32-byte buffer [1,..,8] from
the context left by init, the event trace of the superscalar4 native operation
is six vector-register statements with no acquire and no release, while the
trace of the aarch64_neon byteswap operation on the same input is bracketed:
acquire, four vector-register statements, release. -/
theorem C10_superscalar4_native_vector_path_unbracketed :
    (fletcher_4_superscalar4_native Machine.zero
        (fletcher_4_superscalar4_init ⟨⟨0, 0, 0, 0⟩, ⟨0, 0, 0, 0⟩, ⟨0, 0, 0, 0⟩, ⟨0, 0, 0, 0⟩⟩)
        [1, 2, 3, 4, 5, 6, 7, 8] 32).map (fun r => r.m.trace) =
        some [Event.vec, Event.vec, Event.vec, Event.vec, Event.vec, Event.vec] ∧
      (fletcher_4_aarch64_neon_byteswap Machine.zero
        (fletcher_4_aarch64_neon_init ⟨⟨0, 0⟩, ⟨0, 0⟩, ⟨0, 0⟩, ⟨0, 0⟩⟩)
        [1, 2, 3, 4, 5, 6, 7, 8] 32).map (fun r => r.m.trace) =
        some [Event.kfpu_begin, Event.vec, Event.vec, Event.vec, Event.vec,
          Event.kfpu_end] := by
  constructor
  · simp [fletcher_4_superscalar4_native, native_printk_reads, load64, superscalar4_native_loop,
      superscalar4_neon_loop, load4, SUPERSCALAR4_NEON_FINI_LOOP, SUPERSCALAR4_NEON_MAIN,
      SUPERSCALAR4_NEON_MAIN_LOAD, SUPERSCALAR4_NEON_INIT, emit_trace, setv_trace, Machine.zero]
  · simp [fletcher_4_aarch64_neon_byteswap, aarch64_neon_byteswap_loop, load4, NEON_FINI_LOOP2,
      NEON_MAIN_LOOP, NEON_INIT_LOOP2, kfpu_begin, kfpu_end, emit_trace, setv_trace,
      Machine.zero]

theorem BSWAP_32_bytes {a b c d : Nat} (ha : a < 256) (hb : b < 256) (hc : c < 256)
    (hd : d < 256) :
    BSWAP_32 (a + 256 * b + 65536 * c + 16777216 * d) =
      d + 256 * c + 65536 * b + 16777216 * a := by
  unfold BSWAP_32
  omega

theorem BSWAP_32_BSWAP_32 {x : Nat} (h : x < 2 ^ 32) : BSWAP_32 (BSWAP_32 x) = x := by
  have hx : x = x % 256 + 256 * (x / 256 % 256) + 65536 * (x / 65536 % 256) +
      16777216 * (x / 16777216 % 256) := by omega
  have h0 : x % 256 < 256 := Nat.mod_lt _ (by norm_num)
  have h1 : x / 256 % 256 < 256 := Nat.mod_lt _ (by norm_num)
  have h2 : x / 65536 % 256 < 256 := Nat.mod_lt _ (by norm_num)
  have h3 : x / 16777216 % 256 < 256 := Nat.mod_lt _ (by norm_num)
  rw [hx, BSWAP_32_bytes h0 h1 h2 h3, BSWAP_32_bytes h3 h2 h1 h0]

theorem map_BSWAP_32_BSWAP_32 :
    ∀ (ws : List Nat), (∀ w ∈ ws, w < 2 ^ 32) → (ws.map BSWAP_32).map BSWAP_32 = ws
  | [], _ => rfl
  | w :: rest, h => by
    have hw : w < 2 ^ 32 := h w (by simp)
    have hr : ∀ x ∈ rest, x < 2 ^ 32 := fun x hx => h x (by simp [hx])
    simp only [List.map, BSWAP_32_BSWAP_32 hw, map_BSWAP_32_BSWAP_32 rest hr]

/-! ## Sub-streams -/

theorem every4_cons (a : Nat) : ∀ (l : List Nat), every4 (a :: l) = a :: every4 (l.drop 3)
  | [] => rfl
  | [_] => rfl
  | [_, _] => rfl
  | _ :: _ :: _ :: _ => rfl

theorem every2_cons (a : Nat) : ∀ (l : List Nat), every2 (a :: l) = a :: every2 (l.drop 1)
  | [] => rfl
  | _ :: _ => rfl

theorem substream2_group (w0 w1 w2 w3 : Nat) (rest : List Nat) :
    substream2 0 (w0 :: w1 :: w2 :: w3 :: rest) = w0 :: w2 :: substream2 0 rest ∧
      substream2 1 (w0 :: w1 :: w2 :: w3 :: rest) = w1 :: w3 :: substream2 1 rest := by
  constructor
  · simp [substream2, every2]
  · simp only [substream2, List.drop_succ_cons, List.drop_zero]
    rw [every2_cons, List.drop_succ_cons, List.drop_zero, every2_cons]

theorem neon_body_lane (c : aarch64_neon_ctx) (x0 x1 x2 x3 : Nat) :
    (neon_body c x0 x1 x2 x3).lane 0 = spec_fletcher4_from (c.lane 0) [x0, x2] ∧
      (neon_body c x0 x1 x2 x3).lane 1 = spec_fletcher4_from (c.lane 1) [x1, x3] :=
  ⟨rfl, rfl⟩

/-- Each lane of the 2-way fold is the serial cascade over its own sub-stream. -/
theorem fold4_neon_lane :
    ∀ (ws : List Nat) (c : aarch64_neon_ctx), ws.length % 4 = 0 →
      (fold4 neon_body c ws).lane 0 = spec_fletcher4_from (c.lane 0) (substream2 0 ws) ∧
        (fold4 neon_body c ws).lane 1 = spec_fletcher4_from (c.lane 1) (substream2 1 ws)
  | [], _, _ => ⟨rfl, rfl⟩
  | [_], _, h => by simp at h
  | [_, _], _, h => by simp at h
  | [_, _, _], _, h => by simp at h
  | w0 :: w1 :: w2 :: w3 :: rest, c, h => by
    have h2 : rest.length % 4 = 0 := by
      simp only [List.length_cons] at h
      omega
    obtain ⟨i0, i1⟩ := fold4_neon_lane rest (neon_body c w0 w1 w2 w3) h2
    obtain ⟨b0, b1⟩ := neon_body_lane c w0 w1 w2 w3
    obtain ⟨s0, s1⟩ := substream2_group w0 w1 w2 w3 rest
    rw [fold4, i0, i1, b0, b1, s0, s1]
    simp [spec_fletcher4_from]

theorem substream4_group (w0 w1 w2 w3 : Nat) (rest : List Nat) :
    substream4 0 (w0 :: w1 :: w2 :: w3 :: rest) = w0 :: substream4 0 rest ∧
      substream4 1 (w0 :: w1 :: w2 :: w3 :: rest) = w1 :: substream4 1 rest ∧
      substream4 2 (w0 :: w1 :: w2 :: w3 :: rest) = w2 :: substream4 2 rest ∧
      substream4 3 (w0 :: w1 :: w2 :: w3 :: rest) = w3 :: substream4 3 rest := by
  refine ⟨?_, ?_, ?_, ?_⟩
  · simp [substream4, every4]
  · simp only [substream4, List.drop_succ_cons, List.drop_zero]
    rw [every4_cons]
    simp
  · simp only [substream4, List.drop_succ_cons, List.drop_zero]
    rw [every4_cons]
    simp
  · simp only [substream4, List.drop_succ_cons, List.drop_zero]
    rw [every4_cons]

theorem superscalar4_body_lane (s : superscalar_ctx) (w0 w1 w2 w3 : Nat) :
    (superscalar4_body s w0 w1 w2 w3).lane 0 = spec_fletcher4_step (s.lane 0) w0 ∧
      (superscalar4_body s w0 w1 w2 w3).lane 1 = spec_fletcher4_step (s.lane 1) w1 ∧
      (superscalar4_body s w0 w1 w2 w3).lane 2 = spec_fletcher4_step (s.lane 2) w2 ∧
      (superscalar4_body s w0 w1 w2 w3).lane 3 = spec_fletcher4_step (s.lane 3) w3 :=
  ⟨rfl, rfl, rfl, rfl⟩

/-- Each lane of the 4-way fold is the serial cascade over its own sub-stream. -/
theorem fold4_superscalar4_lane :
    ∀ (ws : List Nat) (s : superscalar_ctx), ws.length % 4 = 0 →
      (fold4 superscalar4_body s ws).lane 0 =
          spec_fletcher4_from (s.lane 0) (substream4 0 ws) ∧
        (fold4 superscalar4_body s ws).lane 1 =
          spec_fletcher4_from (s.lane 1) (substream4 1 ws) ∧
        (fold4 superscalar4_body s ws).lane 2 =
          spec_fletcher4_from (s.lane 2) (substream4 2 ws) ∧
        (fold4 superscalar4_body s ws).lane 3 =
          spec_fletcher4_from (s.lane 3) (substream4 3 ws)
  | [], _, _ => ⟨rfl, rfl, rfl, rfl⟩
  | [_], _, h => by simp at h
  | [_, _], _, h => by simp at h
  | [_, _, _], _, h => by simp at h
  | w0 :: w1 :: w2 :: w3 :: rest, s, h => by
    have h2 : rest.length % 4 = 0 := by
      simp only [List.length_cons] at h
      omega
    obtain ⟨i0, i1, i2, i3⟩ := fold4_superscalar4_lane rest (superscalar4_body s w0 w1 w2 w3) h2
    obtain ⟨b0, b1, b2, b3⟩ := superscalar4_body_lane s w0 w1 w2 w3
    obtain ⟨s0, s1, s2, s3⟩ := substream4_group w0 w1 w2 w3 rest
    rw [fold4, i0, i1, i2, i3, b0, b1, b2, b3, s0, s1, s2, s3]
    simp [spec_fletcher4_from]

theorem fold4_superscalar4_lane_lt (ws : List Nat) (s : superscalar_ctx)
    (h : ws.length % 4 = 0) (i : Nat) (hi : i < 4) :
    (fold4 superscalar4_body s ws).lane i =
      spec_fletcher4_from (s.lane i) (substream4 i ws) := by
  obtain ⟨i0, i1, i2, i3⟩ := fold4_superscalar4_lane ws s h
  interval_cases i
  · exact i0
  · exact i1
  · exact i2
  · exact i3

/-! ## The closed form of the serial cascade -/

theorem wsum_nil (f : Nat → Nat) : wsum f [] = 0 := by
  simp [wsum]

theorem wsum_cons (f : Nat → Nat) (w : Nat) (rest : List Nat) :
    wsum f (w :: rest) = f (rest.length + 1) * w + wsum f rest := by
  unfold wsum
  rw [List.length_cons, Finset.sum_range_succ']
  simp only [List.getD_cons_succ, List.getD_cons_zero, Nat.sub_zero, Nat.add_sub_add_right]
  omega

theorem spec_closed_form_eq (ws : List Nat) :
    spec_closed_form ws =
      ⟨wsum (fun _ => 1) ws % 2 ^ 64, wsum (fun k => k) ws % 2 ^ 64,
       wsum (fun k => Nat.choose (k + 1) 2) ws % 2 ^ 64,
       wsum (fun k => Nat.choose (k + 2) 3) ws % 2 ^ 64⟩ := by
  simp [spec_closed_form, wsum]

/-- The serial cascade from any start, as residues modulo 2^64. -/
theorem spec_fletcher4_from_cast :
    ∀ (ws : List Nat) (s : zio_cksum_t),
      (((spec_fletcher4_from s ws).A : Nat) : ZMod (2 ^ 64)) =
          s.A + (wsum (fun _ => 1) ws : Nat) ∧
        (((spec_fletcher4_from s ws).B : Nat) : ZMod (2 ^ 64)) =
          s.B + (ws.length : Nat) * s.A + (wsum (fun k => k) ws : Nat) ∧
        (((spec_fletcher4_from s ws).C : Nat) : ZMod (2 ^ 64)) =
          s.C + (ws.length : Nat) * s.B + (Nat.choose (ws.length + 1) 2 : Nat) * s.A +
            (wsum (fun k => Nat.choose (k + 1) 2) ws : Nat) ∧
        (((spec_fletcher4_from s ws).D : Nat) : ZMod (2 ^ 64)) =
          s.D + (ws.length : Nat) * s.C + (Nat.choose (ws.length + 1) 2 : Nat) * s.B +
            (Nat.choose (ws.length + 2) 3 : Nat) * s.A +
            (wsum (fun k => Nat.choose (k + 2) 3) ws : Nat)
  | [], s => by
    simp [spec_fletcher4_from, wsum_nil]
  | w :: rest, s => by
    obtain ⟨iA, iB, iC, iD⟩ := spec_fletcher4_from_cast rest (spec_fletcher4_step s w)
    have e : spec_fletcher4_from s (w :: rest) =
        spec_fletcher4_from (spec_fletcher4_step s w) rest := rfl
    have p2 : Nat.choose (rest.length + 1 + 1) 2 =
        (rest.length + 1) + Nat.choose (rest.length + 1) 2 := by
      rw [Nat.choose_succ_succ, Nat.choose_one_right]
    have p3 : Nat.choose (rest.length + 1 + 2) 3 =
        Nat.choose (rest.length + 2) 2 + Nat.choose (rest.length + 2) 3 := by
      rw [Nat.choose_succ_succ]
    have p2b : Nat.choose (rest.length + 2) 2 =
        (rest.length + 1) + Nat.choose (rest.length + 1) 2 := p2
    rw [e, iA, iB, iC, iD]
    simp only [wsum_cons, List.length_cons, p2, p3, p2b, spec_fletcher4_step, cast_add64]
    push_cast
    refine ⟨?_, ?_, ?_, ?_⟩ <;> ring

theorem spec_fletcher4_from_lt :
    ∀ (ws : List Nat) (s : zio_cksum_t),
      s.A < 2 ^ 64 → s.B < 2 ^ 64 → s.C < 2 ^ 64 → s.D < 2 ^ 64 →
      (spec_fletcher4_from s ws).A < 2 ^ 64 ∧ (spec_fletcher4_from s ws).B < 2 ^ 64 ∧
        (spec_fletcher4_from s ws).C < 2 ^ 64 ∧ (spec_fletcher4_from s ws).D < 2 ^ 64
  | [], _, hA, hB, hC, hD => ⟨hA, hB, hC, hD⟩
  | w :: rest, s, _, _, _, _ =>
    spec_fletcher4_from_lt rest (spec_fletcher4_step s w) (add64_lt _ _) (add64_lt _ _)
      (add64_lt _ _) (add64_lt _ _)

/-- The serial cascade from zero is the closed form. -/
theorem spec_fletcher4_closed (ws : List Nat) : spec_fletcher4 ws = spec_closed_form ws := by
  obtain ⟨cA, cB, cC, cD⟩ := spec_fletcher4_from_cast ws ⟨0, 0, 0, 0⟩
  obtain ⟨lA, lB, lC, lD⟩ := spec_fletcher4_from_lt ws ⟨0, 0, 0, 0⟩ (by norm_num) (by norm_num)
    (by norm_num) (by norm_num)
  have hm : ∀ x : Nat, x % 2 ^ 64 < 2 ^ 64 := fun x => Nat.mod_lt _ (by norm_num)
  rw [spec_closed_form_eq]
  unfold spec_fletcher4
  apply zio_ext
  · apply eq_of_cast_eq lA (hm _)
    rw [cA, ZMod.natCast_mod]
    simp
  · apply eq_of_cast_eq lB (hm _)
    rw [cB, ZMod.natCast_mod]
    simp
  · apply eq_of_cast_eq lC (hm _)
    rw [cC, ZMod.natCast_mod]
    simp
  · apply eq_of_cast_eq lD (hm _)
    rw [cD, ZMod.natCast_mod]
    simp

/-! ## The finalization as an integer linear combination -/

theorem toNat_emod_lt (z : Int) : (z % 2 ^ 64).toNat < 2 ^ 64 := by
  have h1 : 0 ≤ z % 2 ^ 64 := Int.emod_nonneg _ (by norm_num)
  have h2 : z % 2 ^ 64 < 2 ^ 64 := Int.emod_lt_of_pos _ (by norm_num)
  omega

theorem cast_toNat_emod (z : Int) :
    (((z % 2 ^ 64).toNat : Nat) : ZMod (2 ^ 64)) = (z : ZMod (2 ^ 64)) := by
  have h1 : 0 ≤ z % 2 ^ 64 := Int.emod_nonneg _ (by norm_num)
  have h3 : (((z % 2 ^ 64).toNat : Nat) : Int) = z % 2 ^ 64 := Int.toNat_of_nonneg h1
  have h4 : (((z % 2 ^ 64).toNat : Nat) : ZMod (2 ^ 64)) =
      ((((z % 2 ^ 64).toNat : Nat) : Int) : ZMod (2 ^ 64)) := by
    rw [Int.cast_natCast]
  rw [h4, h3]
  have h5 : ((2 ^ 64 : Int)) = ((2 ^ 64 : Nat) : Int) := by norm_num
  rw [h5, ZMod.intCast_mod]

/-- The `uint64_t` evaluation of fini agrees with the integer linear
combination reduced modulo 2^64, whatever the lanes hold. -/
theorem superscalar4_fini_eq_int (c : superscalar_ctx) :
    fletcher_4_superscalar4_fini c = spec_superscalar4_fini_int c := by
  apply zio_ext
  all_goals
    simp only [fletcher_4_superscalar4_fini, spec_superscalar4_fini_int, ZIO_SET_CHECKSUM]
    apply eq_of_cast_eq (add64_lt _ _) (toNat_emod_lt _)
    rw [cast_toNat_emod]
    simp only [cast_add64, cast_sub64, cast_mul64]
    push_cast
    ring

theorem superscalar_ctx_lanes_inj {x y : superscalar_ctx} (h : x.lanes = y.lanes) : x = y := by
  obtain ⟨⟨a0, a1, a2, a3⟩, ⟨b0, b1, b2, b3⟩, ⟨c0, c1, c2, c3⟩, ⟨d0, d1, d2, d3⟩⟩ := x
  obtain ⟨⟨e0, e1, e2, e3⟩, ⟨f0, f1, f2, f3⟩, ⟨g0, g1, g2, g3⟩, ⟨h0, h1, h2, h3⟩⟩ := y
  simp only [superscalar_ctx.lanes, List.cons.injEq, and_true] at h
  obtain ⟨r0, r1, r2, r3, r4, r5, r6, r7, r8, r9, r10, r11, r12, r13, r14, r15⟩ := h
  subst_vars
  rfl

theorem aarch64_neon_ctx_lanes_inj {x y : aarch64_neon_ctx} (h : x.lanes = y.lanes) :
    x = y := by
  obtain ⟨⟨a0, a1⟩, ⟨b0, b1⟩, ⟨c0, c1⟩, ⟨d0, d1⟩⟩ := x
  obtain ⟨⟨e0, e1⟩, ⟨f0, f1⟩, ⟨g0, g1⟩, ⟨h0, h1⟩⟩ := y
  simp only [aarch64_neon_ctx.lanes, List.cons.injEq, and_true] at h
  obtain ⟨r0, r1, r2, r3, r4, r5, r6, r7⟩ := h
  subst_vars
  rfl

/-- Mixed endianness on buffers of at least six words: from every starting
context, the superscalar4 native operation on B1 followed by the byteswap
operation on B2 leaves the same context as one native call on B1 followed by
the byte-reversed copy of B2, and the byteswap operation on B1 followed by the
native operation on B2 leaves the same context as one byteswap call on B1
followed by the byte-reversed copy of B2. -/
theorem mixed_endianness_of_six (m1 m2 : Machine) (ctx : superscalar_ctx)
    (B1 B2 : List Nat) (h1 : B1.length % 4 = 0) (h2 : B2.length % 4 = 0)
    (k1 : 6 ≤ B1.length) (k2 : 6 ≤ B2.length) (hw : ∀ w ∈ B2, w < 2 ^ 32) :
    (∃ r1 c2 r,
        fletcher_4_superscalar4_native m1 ctx B1 (4 * B1.length) = some r1 ∧
        fletcher_4_superscalar4_byteswap r1.ctx B2 (4 * B2.length) = some c2 ∧
        fletcher_4_superscalar4_native m2 ctx (B1 ++ B2.map BSWAP_32)
          (4 * (B1 ++ B2.map BSWAP_32).length) = some r ∧
        c2 = r.ctx) ∧
      (∃ c1 r2 c,
        fletcher_4_superscalar4_byteswap ctx B1 (4 * B1.length) = some c1 ∧
        fletcher_4_superscalar4_native m1 c1 B2 (4 * B2.length) = some r2 ∧
        fletcher_4_superscalar4_byteswap ctx (B1 ++ B2.map BSWAP_32)
          (4 * (B1 ++ B2.map BSWAP_32).length) = some c ∧
        r2.ctx = c) := by
  have h12 : (B1 ++ B2.map BSWAP_32).length % 4 = 0 := by
    rw [List.length_append, List.length_map]
    omega
  have k12 : 6 ≤ (B1 ++ B2.map BSWAP_32).length := by
    rw [List.length_append, List.length_map]
    omega
  constructor
  · obtain ⟨r1, e1, c1, _⟩ := superscalar4_native_spec m1 ctx B1 h1 k1
    obtain ⟨r, e, c, _⟩ := superscalar4_native_spec m2 ctx (B1 ++ B2.map BSWAP_32) h12 k12
    refine ⟨r1, _, r, e1, byteswap_fold r1.ctx B2 h2, e, ?_⟩
    rw [c, c1, fold4_append superscalar4_body B1 _ ctx h1]
  · obtain ⟨r2, e2, c2, _⟩ := superscalar4_native_spec m1
      (fold4 superscalar4_body ctx (B1.map BSWAP_32)) B2 h2 k2
    refine ⟨_, r2, _, byteswap_fold ctx B1 h1, e2, byteswap_fold ctx _ h12, ?_⟩
    rw [c2, List.map_append, map_BSWAP_32_BSWAP_32 B2 hw,
      fold4_append superscalar4_body _ _ ctx (by simpa using h1)]

/-- C11 (the code departs from the claim): with B1 = [1,2,3,4] and
B2 = [0x01020304, 2, 3, 0xffffffff], the superscalar4 native operation on B1
reads out of bounds (the reads made for the printk calls), so native on B1
followed by byteswap on B2 leaves nothing while one native call on B1 followed
by the byte-reversed B2 returns normally; with the modes exchanged, byteswap on
B1 returns normally and native on B2 reads out of bounds, while one byteswap
call on B1 followed by the byte-reversed B2 returns normally.  On
B1 = [1,..,8] and B2 = [0x01020304, 2, 3, 0xffffffff, 5, 6, 7, 8] both orders
agree with the single call. -/
theorem C11_mixed_endianness_overreads :
    ((fletcher_4_superscalar4_native Machine.zero
          ⟨⟨1, 2, 3, 4⟩, ⟨5, 6, 7, 8⟩, ⟨9, 10, 11, 12⟩, ⟨13, 14, 15, 16⟩⟩
          [1, 2, 3, 4] 16).bind
        (fun r1 => fletcher_4_superscalar4_byteswap r1.ctx
          [16909060, 2, 3, 4294967295] 16)) = none ∧
      (fletcher_4_superscalar4_native Machine.zero
        ⟨⟨1, 2, 3, 4⟩, ⟨5, 6, 7, 8⟩, ⟨9, 10, 11, 12⟩, ⟨13, 14, 15, 16⟩⟩
        ([1, 2, 3, 4] ++ [16909060, 2, 3, 4294967295].map BSWAP_32) 32).isSome = true ∧
      ((fletcher_4_superscalar4_byteswap
          ⟨⟨1, 2, 3, 4⟩, ⟨5, 6, 7, 8⟩, ⟨9, 10, 11, 12⟩, ⟨13, 14, 15, 16⟩⟩
          [1, 2, 3, 4] 16).bind
        (fun c1 => fletcher_4_superscalar4_native Machine.zero c1
          [16909060, 2, 3, 4294967295] 16)).isSome = false ∧
      (fletcher_4_superscalar4_byteswap
        ⟨⟨1, 2, 3, 4⟩, ⟨5, 6, 7, 8⟩, ⟨9, 10, 11, 12⟩, ⟨13, 14, 15, 16⟩⟩
        ([1, 2, 3, 4] ++ [16909060, 2, 3, 4294967295].map BSWAP_32) 32).isSome = true ∧
      ((∃ r1 c2 r,
        fletcher_4_superscalar4_native Machine.zero
          ⟨⟨1, 2, 3, 4⟩, ⟨5, 6, 7, 8⟩, ⟨9, 10, 11, 12⟩, ⟨13, 14, 15, 16⟩⟩
          [1, 2, 3, 4, 5, 6, 7, 8] 32 = some r1 ∧
        fletcher_4_superscalar4_byteswap r1.ctx
          [16909060, 2, 3, 4294967295, 5, 6, 7, 8] 32 = some c2 ∧
        fletcher_4_superscalar4_native Machine.zero
          ⟨⟨1, 2, 3, 4⟩, ⟨5, 6, 7, 8⟩, ⟨9, 10, 11, 12⟩, ⟨13, 14, 15, 16⟩⟩
          ([1, 2, 3, 4, 5, 6, 7, 8] ++ [16909060, 2, 3, 4294967295, 5, 6, 7, 8].map BSWAP_32)
          64 = some r ∧
        c2 = r.ctx) ∧
      (∃ c1 r2 c,
        fletcher_4_superscalar4_byteswap
          ⟨⟨1, 2, 3, 4⟩, ⟨5, 6, 7, 8⟩, ⟨9, 10, 11, 12⟩, ⟨13, 14, 15, 16⟩⟩
          [1, 2, 3, 4, 5, 6, 7, 8] 32 = some c1 ∧
        fletcher_4_superscalar4_native Machine.zero c1
          [16909060, 2, 3, 4294967295, 5, 6, 7, 8] 32 = some r2 ∧
        fletcher_4_superscalar4_byteswap
          ⟨⟨1, 2, 3, 4⟩, ⟨5, 6, 7, 8⟩, ⟨9, 10, 11, 12⟩, ⟨13, 14, 15, 16⟩⟩
          ([1, 2, 3, 4, 5, 6, 7, 8] ++ [16909060, 2, 3, 4294967295, 5, 6, 7, 8].map BSWAP_32)
          64 = some c ∧
        r2.ctx = c)) := by
  refine ⟨?_, ?_, ?_, ?_, ?_⟩
  · rw [native_none_of_short _ _ _ (by decide)]
    rfl
  · obtain ⟨r, hr, _⟩ := superscalar4_native_spec Machine.zero
      ⟨⟨1, 2, 3, 4⟩, ⟨5, 6, 7, 8⟩, ⟨9, 10, 11, 12⟩, ⟨13, 14, 15, 16⟩⟩
      ([1, 2, 3, 4] ++ [16909060, 2, 3, 4294967295].map BSWAP_32) (by decide) (by decide)
    have hr2 : fletcher_4_superscalar4_native Machine.zero
        ⟨⟨1, 2, 3, 4⟩, ⟨5, 6, 7, 8⟩, ⟨9, 10, 11, 12⟩, ⟨13, 14, 15, 16⟩⟩
        ([1, 2, 3, 4] ++ [16909060, 2, 3, 4294967295].map BSWAP_32) 32 = some r := hr
    rw [hr2]
    rfl
  · have hb : fletcher_4_superscalar4_byteswap
        ⟨⟨1, 2, 3, 4⟩, ⟨5, 6, 7, 8⟩, ⟨9, 10, 11, 12⟩, ⟨13, 14, 15, 16⟩⟩
        [1, 2, 3, 4] 16 = _ :=
      byteswap_fold ⟨⟨1, 2, 3, 4⟩, ⟨5, 6, 7, 8⟩, ⟨9, 10, 11, 12⟩, ⟨13, 14, 15, 16⟩⟩
        [1, 2, 3, 4] (by decide)
    rw [hb, Option.some_bind, native_none_of_short _ _ _ (by decide)]
    rfl
  · have hb : fletcher_4_superscalar4_byteswap
        ⟨⟨1, 2, 3, 4⟩, ⟨5, 6, 7, 8⟩, ⟨9, 10, 11, 12⟩, ⟨13, 14, 15, 16⟩⟩
        ([1, 2, 3, 4] ++ [16909060, 2, 3, 4294967295].map BSWAP_32) 32 = _ :=
      byteswap_fold ⟨⟨1, 2, 3, 4⟩, ⟨5, 6, 7, 8⟩, ⟨9, 10, 11, 12⟩, ⟨13, 14, 15, 16⟩⟩
        ([1, 2, 3, 4] ++ [16909060, 2, 3, 4294967295].map BSWAP_32) (by decide)
    rw [hb]
    rfl
  · exact mixed_endianness_of_six Machine.zero Machine.zero
      ⟨⟨1, 2, 3, 4⟩, ⟨5, 6, 7, 8⟩, ⟨9, 10, 11, 12⟩, ⟨13, 14, 15, 16⟩⟩
      [1, 2, 3, 4, 5, 6, 7, 8] [16909060, 2, 3, 4294967295, 5, 6, 7, 8]
      (by decide) (by decide) (by decide) (by decide) (by decide)

/-- C12: the superscalar4 backend reports itself available whatever the value
of the vector-availability oracle, the aarch64_neon backend reports exactly the
value of the oracle, and so at least one of the two backends is available. -/
theorem C12_scalar_backend_always_available (kfpu_allowed : Bool) :
    fletcher_4_superscalar4_valid kfpu_allowed = true ∧
      fletcher_4_aarch64_neon_valid kfpu_allowed = kfpu_allowed ∧
      (fletcher_4_superscalar4_valid kfpu_allowed ||
        fletcher_4_aarch64_neon_valid kfpu_allowed) = true := by
  cases kfpu_allowed <;> exact ⟨rfl, rfl, rfl⟩

/-- C13: for every buffer of 32-bit words whose word count is a multiple of 4,
init, then the byteswap operation over the whole buffer, then fini of the
aarch64_neon backend returns normally and yields exactly the four words of the
canonical serial Fletcher4 cascade over the byte-reversed words in order; lane
0 holds the cascade of the even-indexed words and lane 1 that of the
odd-indexed words. -/
theorem C13_neon_byteswap_is_serial (m : Machine) (ctx0 : aarch64_neon_ctx) (buf : List Nat)
    (h : buf.length % 4 = 0) (hw : ∀ w ∈ buf, w < 2 ^ 32) :
    ∃ r, fletcher_4_aarch64_neon_byteswap m (fletcher_4_aarch64_neon_init ctx0) buf
        (4 * buf.length) = some r ∧
      fletcher_4_aarch64_neon_fini r.ctx = spec_fletcher4 (buf.map BSWAP_32) ∧
      r.ctx.lane 0 = spec_fletcher4 (substream2 0 (buf.map BSWAP_32)) ∧
      r.ctx.lane 1 = spec_fletcher4 (substream2 1 (buf.map BSWAP_32)) := by
  obtain ⟨r, hr, hc, _⟩ := neon_byteswap_fold m (fletcher_4_aarch64_neon_init ctx0) buf h hw
  obtain ⟨l0, l1⟩ := fold4_neon_lane (buf.map BSWAP_32) (fletcher_4_aarch64_neon_init ctx0)
    (by simpa using h)
  refine ⟨r, hr, ?_, ?_, ?_⟩
  · rw [hc, fold4_spec fletcher_4_aarch64_neon_fini neon_body neon_fini_body _ _
      (by simpa using h), neon_fini_init]
    rfl
  · rw [hc, l0]
    rfl
  · rw [hc, l1]
    rfl

/-- Witness of C13 on the buffer [0x01020304, 2, 3, 0xffffffff]. -/
theorem C13_neon_byteswap_is_serial_witness :
    [16909060, 2, 3, 4294967295].length % 4 = 0 ∧
      (∀ w ∈ [16909060, 2, 3, 4294967295], w < 2 ^ 32) ∧
      ∃ r, fletcher_4_aarch64_neon_byteswap Machine.zero
          (fletcher_4_aarch64_neon_init ⟨⟨1, 2⟩, ⟨3, 4⟩, ⟨5, 6⟩, ⟨7, 8⟩⟩)
          [16909060, 2, 3, 4294967295] (4 * [16909060, 2, 3, 4294967295].length) = some r ∧
        fletcher_4_aarch64_neon_fini r.ctx =
          spec_fletcher4 ([16909060, 2, 3, 4294967295].map BSWAP_32) ∧
        r.ctx.lane 0 = spec_fletcher4 (substream2 0 ([16909060, 2, 3, 4294967295].map BSWAP_32)) ∧
        r.ctx.lane 1 = spec_fletcher4 (substream2 1 ([16909060, 2, 3, 4294967295].map BSWAP_32)) :=
  ⟨by decide, by decide,
    C13_neon_byteswap_is_serial Machine.zero ⟨⟨1, 2⟩, ⟨3, 4⟩, ⟨5, 6⟩, ⟨7, 8⟩⟩
      [16909060, 2, 3, 4294967295] (by decide) (by decide)⟩

/-- C14: for every starting context and buffers B1, B2 of 32-bit words each
holding a multiple of 4 words, the aarch64_neon byteswap operation on B1 and
then on B2, the context being stored and reloaded between the calls and the
vector registers arbitrary at each call, returns normally and leaves the same
8 lanes as one call on B1 followed by B2. -/
theorem C14_neon_byteswap_incremental (m1 m2 m3 : Machine) (ctx : aarch64_neon_ctx)
    (B1 B2 : List Nat) (h1 : B1.length % 4 = 0) (h2 : B2.length % 4 = 0)
    (hw1 : ∀ w ∈ B1, w < 2 ^ 32) (hw2 : ∀ w ∈ B2, w < 2 ^ 32) :
    ∃ r1 r2 r,
      fletcher_4_aarch64_neon_byteswap m1 ctx B1 (4 * B1.length) = some r1 ∧
      fletcher_4_aarch64_neon_byteswap m2 r1.ctx B2 (4 * B2.length) = some r2 ∧
      fletcher_4_aarch64_neon_byteswap m3 ctx (B1 ++ B2) (4 * (B1 ++ B2).length) = some r ∧
      r2.ctx.lanes = r.ctx.lanes := by
  have h12 : (B1 ++ B2).length % 4 = 0 := by
    rw [List.length_append]
    omega
  have hw12 : ∀ w ∈ B1 ++ B2, w < 2 ^ 32 := by
    intro w hm
    rcases List.mem_append.1 hm with h | h
    · exact hw1 w h
    · exact hw2 w h
  obtain ⟨r1, e1, c1, _⟩ := neon_byteswap_fold m1 ctx B1 h1 hw1
  obtain ⟨r2, e2, c2, _⟩ := neon_byteswap_fold m2 r1.ctx B2 h2 hw2
  obtain ⟨r, e, c, _⟩ := neon_byteswap_fold m3 ctx (B1 ++ B2) h12 hw12
  refine ⟨r1, r2, r, e1, e2, e, ?_⟩
  rw [c2, c, c1, List.map_append, fold4_append neon_body _ _ ctx (by simpa using h1)]

/-- Witness of C14 on B1 = [1,2,3,4] and B2 = [0x01020304, 2, 3, 0xffffffff]. -/
theorem C14_neon_byteswap_incremental_witness :
    [1, 2, 3, 4].length % 4 = 0 ∧ [16909060, 2, 3, 4294967295].length % 4 = 0 ∧
      (∀ w ∈ [1, 2, 3, 4], w < 2 ^ 32) ∧ (∀ w ∈ [16909060, 2, 3, 4294967295], w < 2 ^ 32) ∧
      ∃ r1 r2 r,
        fletcher_4_aarch64_neon_byteswap Machine.zero ⟨⟨1, 2⟩, ⟨3, 4⟩, ⟨5, 6⟩, ⟨7, 8⟩⟩
          [1, 2, 3, 4] (4 * [1, 2, 3, 4].length) = some r1 ∧
        fletcher_4_aarch64_neon_byteswap Machine.zero r1.ctx [16909060, 2, 3, 4294967295]
          (4 * [16909060, 2, 3, 4294967295].length) = some r2 ∧
        fletcher_4_aarch64_neon_byteswap Machine.zero ⟨⟨1, 2⟩, ⟨3, 4⟩, ⟨5, 6⟩, ⟨7, 8⟩⟩
          ([1, 2, 3, 4] ++ [16909060, 2, 3, 4294967295])
          (4 * ([1, 2, 3, 4] ++ [16909060, 2, 3, 4294967295]).length) = some r ∧
        r2.ctx.lanes = r.ctx.lanes :=
  ⟨by decide, by decide, by decide, by decide,
    C14_neon_byteswap_incremental Machine.zero Machine.zero Machine.zero
      ⟨⟨1, 2⟩, ⟨3, 4⟩, ⟨5, 6⟩, ⟨7, 8⟩⟩ [1, 2, 3, 4] [16909060, 2, 3, 4294967295]
      (by decide) (by decide) (by decide) (by decide)⟩

/-- Lane independence on buffers of at least six words: from every starting
context, for every buffer of 4n words and every lane i in 0..3, the native
operation returns normally and the four levels of lane i afterwards are the
serial 4-level cascade started from that lane's prior four levels and fed the
words at positions i, i+4, i+8, ...; a second run that agrees with the first
on lane i's prior levels and on sub-stream i ends with the same levels in
lane i. -/
theorem lane_independence_of_six (m m2 : Machine) (ctx ctx2 : superscalar_ctx)
    (buf buf2 : List Nat) (i : Nat) (h : buf.length % 4 = 0) (h2 : buf2.length % 4 = 0)
    (k : 6 ≤ buf.length) (k2 : 6 ≤ buf2.length)
    (hi : i < 4) (hl : ctx.lane i = ctx2.lane i)
    (hs : substream4 i buf = substream4 i buf2) :
    ∃ r r2,
      fletcher_4_superscalar4_native m ctx buf (4 * buf.length) = some r ∧
      fletcher_4_superscalar4_native m2 ctx2 buf2 (4 * buf2.length) = some r2 ∧
      r.ctx.lane i = spec_fletcher4_from (ctx.lane i) (substream4 i buf) ∧
      r.ctx.lane i = r2.ctx.lane i := by
  obtain ⟨r, e, c, _⟩ := superscalar4_native_spec m ctx buf h k
  obtain ⟨r2, e2, c2, _⟩ := superscalar4_native_spec m2 ctx2 buf2 h2 k2
  have l1 := fold4_superscalar4_lane_lt buf ctx h i hi
  have l2 := fold4_superscalar4_lane_lt buf2 ctx2 h2 i hi
  refine ⟨r, r2, e, e2, ?_, ?_⟩
  · rw [c, l1]
  · rw [c, c2, l1, l2, hl, hs]

/-- C15 (the code departs from the claim): on the 16-byte buffer [1,2,3,4] the
superscalar4 native operation reads out of bounds (the reads made for the
printk calls) and leaves no lanes, where the claim gives lane 2 the cascade
(6, 13, 24, 39) of its prior levels (3, 7, 11, 15) over the sub-stream [3].
On 32-byte buffers two runs that agree on lane 2's prior levels and on
sub-stream 2 return normally with lane 2 equal to its own serial cascade and
the same in both runs. -/
theorem C15_lane_independence_overreads :
    (fletcher_4_superscalar4_native Machine.zero
        ⟨⟨1, 2, 3, 4⟩, ⟨5, 6, 7, 8⟩, ⟨9, 10, 11, 12⟩, ⟨13, 14, 15, 16⟩⟩
        [1, 2, 3, 4] 16).isSome = false ∧
      spec_fletcher4_from
          ((⟨⟨1, 2, 3, 4⟩, ⟨5, 6, 7, 8⟩, ⟨9, 10, 11, 12⟩, ⟨13, 14, 15, 16⟩⟩ :
            superscalar_ctx).lane 2) (substream4 2 [1, 2, 3, 4]) = ⟨6, 13, 24, 39⟩ ∧
      ∃ r r2,
        fletcher_4_superscalar4_native Machine.zero
          ⟨⟨1, 2, 3, 4⟩, ⟨5, 6, 7, 8⟩, ⟨9, 10, 11, 12⟩, ⟨13, 14, 15, 16⟩⟩
          [1, 2, 3, 4, 5, 6, 7, 8] 32 = some r ∧
        fletcher_4_superscalar4_native Machine.zero
          ⟨⟨0, 0, 3, 0⟩, ⟨0, 0, 7, 0⟩, ⟨0, 0, 11, 0⟩, ⟨0, 0, 15, 0⟩⟩
          [9, 9, 3, 9, 0, 0, 7, 0] 32 = some r2 ∧
        r.ctx.lane 2 = spec_fletcher4_from
          ((⟨⟨1, 2, 3, 4⟩, ⟨5, 6, 7, 8⟩, ⟨9, 10, 11, 12⟩, ⟨13, 14, 15, 16⟩⟩ :
            superscalar_ctx).lane 2) (substream4 2 [1, 2, 3, 4, 5, 6, 7, 8]) ∧
        r.ctx.lane 2 = r2.ctx.lane 2 := by
  refine ⟨?_, by decide, ?_⟩
  · rw [native_none_of_short _ _ _ (by decide)]
    rfl
  · exact lane_independence_of_six Machine.zero Machine.zero
      ⟨⟨1, 2, 3, 4⟩, ⟨5, 6, 7, 8⟩, ⟨9, 10, 11, 12⟩, ⟨13, 14, 15, 16⟩⟩
      ⟨⟨0, 0, 3, 0⟩, ⟨0, 0, 7, 0⟩, ⟨0, 0, 11, 0⟩, ⟨0, 0, 15, 0⟩⟩
      [1, 2, 3, 4, 5, 6, 7, 8] [9, 9, 3, 9, 0, 0, 7, 0] 2
      (by decide) (by decide) (by decide) (by decide) (by decide) (by decide) (by decide)

/-- C16 (the code departs from the claim): on the group [1,2,3,4] held in a
16-byte buffer, the claim's own example, the superscalar4 native operation
applied to the context left by init reads out of bounds (the reads of ip2[4]
and ip3[2] made for the printk calls) and leaves no lanes; when two more
readable words follow the buffer it leaves [1,2,3,4] at all four levels. -/
theorem C16_first_group_overreads :
    (fletcher_4_superscalar4_native Machine.zero
        (fletcher_4_superscalar4_init ⟨⟨7, 7, 7, 7⟩, ⟨7, 7, 7, 7⟩, ⟨7, 7, 7, 7⟩, ⟨7, 7, 7, 7⟩⟩)
        [1, 2, 3, 4] 16).isSome = false ∧
      (fletcher_4_superscalar4_native Machine.zero
        (fletcher_4_superscalar4_init ⟨⟨7, 7, 7, 7⟩, ⟨7, 7, 7, 7⟩, ⟨7, 7, 7, 7⟩, ⟨7, 7, 7, 7⟩⟩)
        [1, 2, 3, 4, 0, 0] 16).map (fun r => r.ctx) =
        some ⟨⟨1, 2, 3, 4⟩, ⟨1, 2, 3, 4⟩, ⟨1, 2, 3, 4⟩, ⟨1, 2, 3, 4⟩⟩ := by
  refine ⟨?_, ?_⟩
  · rw [native_none_of_short _ _ _ (by decide)]
    rfl
  · simp [superscalar4_init_eq, fletcher_4_superscalar4_native, native_printk_reads, load64,
      superscalar4_native_loop, superscalar4_neon_loop, load4, superscalar4_body, add64]

/-- The closed form on buffers of at least six words: for every buffer of
n = 4m words, init, the native operation and fini of the superscalar4 backend
return normally and give A = sum of w_i, B = sum of (n-i) w_i,
C = sum of binom(n-i+1,2) w_i, D = sum of binom(n-i+2,3) w_i, each reduced
modulo 2^64; and the words fini computes in `uint64_t` arithmetic are the
integer linear combination of the lanes, signed coefficients included, reduced
modulo 2^64. -/
theorem closed_form_of_six (m : Machine) (ctx0 : superscalar_ctx) (buf : List Nat)
    (h : buf.length % 4 = 0) (h6 : 6 ≤ buf.length) :
    ∃ r, fletcher_4_superscalar4_native m (fletcher_4_superscalar4_init ctx0) buf
        (4 * buf.length) = some r ∧
      fletcher_4_superscalar4_fini r.ctx = spec_closed_form buf ∧
      fletcher_4_superscalar4_fini r.ctx = spec_superscalar4_fini_int r.ctx := by
  obtain ⟨r, hr, _, hf⟩ := superscalar4_native_spec m (fletcher_4_superscalar4_init ctx0) buf
    h h6
  refine ⟨r, hr, ?_, superscalar4_fini_eq_int r.ctx⟩
  rw [hf, superscalar4_fini_init, ← spec_fletcher4_closed]
  rfl

/-- C18 (the code departs from the claim): for n = 4 and the words [1,2,3,4]
the closed form is (10,20,35,56), but from the context left by init the
superscalar4 native operation on that 16-byte buffer reads out of bounds (the
reads made for the printk calls) and produces no checksum.  On the 32-byte
buffer of eight words 2^32-1 the operation returns normally, the checksum is
the closed form, and fini agrees with the signed integer linear combination
reduced modulo 2^64. -/
theorem C18_closed_form_overreads :
    spec_closed_form [1, 2, 3, 4] = ⟨10, 20, 35, 56⟩ ∧
      (fletcher_4_superscalar4_native Machine.zero
        (fletcher_4_superscalar4_init ⟨⟨7, 7, 7, 7⟩, ⟨7, 7, 7, 7⟩, ⟨7, 7, 7, 7⟩, ⟨7, 7, 7, 7⟩⟩)
        [1, 2, 3, 4] 16).isSome = false ∧
      ∃ r, fletcher_4_superscalar4_native Machine.zero
          (fletcher_4_superscalar4_init ⟨⟨7, 7, 7, 7⟩, ⟨7, 7, 7, 7⟩, ⟨7, 7, 7, 7⟩, ⟨7, 7, 7, 7⟩⟩)
          [4294967295, 4294967295, 4294967295, 4294967295,
            4294967295, 4294967295, 4294967295, 4294967295] 32 = some r ∧
        fletcher_4_superscalar4_fini r.ctx =
          spec_closed_form [4294967295, 4294967295, 4294967295, 4294967295,
            4294967295, 4294967295, 4294967295, 4294967295] ∧
        fletcher_4_superscalar4_fini r.ctx = spec_superscalar4_fini_int r.ctx := by
  refine ⟨?_, ?_, ?_⟩
  · rw [← spec_fletcher4_closed]
    decide
  · rw [native_none_of_short _ _ _ (by decide)]
    rfl
  · exact closed_form_of_six Machine.zero
      ⟨⟨7, 7, 7, 7⟩, ⟨7, 7, 7, 7⟩, ⟨7, 7, 7, 7⟩, ⟨7, 7, 7, 7⟩⟩
      [4294967295, 4294967295, 4294967295, 4294967295,
        4294967295, 4294967295, 4294967295, 4294967295] (by decide) (by decide)

/-- C19: for every context, the fini calls of both backends leave every lane
of the context unchanged and write only the checksum words; finalizing again
returns the same words, the words do not depend on what the output held
before, and two contexts with the same lanes give the same words. -/
theorem C19_fini_read_only (cs cs2 : superscalar_ctx) (cn cn2 : aarch64_neon_ctx)
    (z z2 : zio_cksum_t) (hs : cs.lanes = cs2.lanes) (hn : cn.lanes = cn2.lanes) :
    (fletcher_4_superscalar4_fini_call cs z).1.lanes = cs.lanes ∧
      (fletcher_4_aarch64_neon_fini_call cn z).1.lanes = cn.lanes ∧
      (fletcher_4_superscalar4_fini_call (fletcher_4_superscalar4_fini_call cs z).1
          (fletcher_4_superscalar4_fini_call cs z).2).2 =
        (fletcher_4_superscalar4_fini_call cs z).2 ∧
      (fletcher_4_aarch64_neon_fini_call (fletcher_4_aarch64_neon_fini_call cn z).1
          (fletcher_4_aarch64_neon_fini_call cn z).2).2 =
        (fletcher_4_aarch64_neon_fini_call cn z).2 ∧
      (fletcher_4_superscalar4_fini_call cs z).2 = (fletcher_4_superscalar4_fini_call cs2 z2).2 ∧
      (fletcher_4_aarch64_neon_fini_call cn z).2 =
        (fletcher_4_aarch64_neon_fini_call cn2 z2).2 := by
  have e1 := superscalar_ctx_lanes_inj hs
  have e2 := aarch64_neon_ctx_lanes_inj hn
  subst e1 e2
  exact ⟨rfl, rfl, rfl, rfl, rfl, rfl⟩

/-- Witness of C19 on contexts with lanes 1..16 and 1..8. -/
theorem C19_fini_read_only_witness :
    (⟨⟨1, 2, 3, 4⟩, ⟨5, 6, 7, 8⟩, ⟨9, 10, 11, 12⟩, ⟨13, 14, 15, 16⟩⟩ : superscalar_ctx).lanes =
        (⟨⟨1, 2, 3, 4⟩, ⟨5, 6, 7, 8⟩, ⟨9, 10, 11, 12⟩, ⟨13, 14, 15, 16⟩⟩ :
          superscalar_ctx).lanes ∧
      (⟨⟨1, 2⟩, ⟨3, 4⟩, ⟨5, 6⟩, ⟨7, 8⟩⟩ : aarch64_neon_ctx).lanes =
        (⟨⟨1, 2⟩, ⟨3, 4⟩, ⟨5, 6⟩, ⟨7, 8⟩⟩ : aarch64_neon_ctx).lanes ∧
      (fletcher_4_superscalar4_fini_call
          ⟨⟨1, 2, 3, 4⟩, ⟨5, 6, 7, 8⟩, ⟨9, 10, 11, 12⟩, ⟨13, 14, 15, 16⟩⟩ ⟨0, 0, 0, 0⟩).2 =
        (fletcher_4_superscalar4_fini_call
          ⟨⟨1, 2, 3, 4⟩, ⟨5, 6, 7, 8⟩, ⟨9, 10, 11, 12⟩, ⟨13, 14, 15, 16⟩⟩ ⟨9, 9, 9, 9⟩).2 :=
  ⟨by decide, by decide,
    (C19_fini_read_only ⟨⟨1, 2, 3, 4⟩, ⟨5, 6, 7, 8⟩, ⟨9, 10, 11, 12⟩, ⟨13, 14, 15, 16⟩⟩
      ⟨⟨1, 2, 3, 4⟩, ⟨5, 6, 7, 8⟩, ⟨9, 10, 11, 12⟩, ⟨13, 14, 15, 16⟩⟩
      ⟨⟨1, 2⟩, ⟨3, 4⟩, ⟨5, 6⟩, ⟨7, 8⟩⟩ ⟨⟨1, 2⟩, ⟨3, 4⟩, ⟨5, 6⟩, ⟨7, 8⟩⟩
      ⟨0, 0, 0, 0⟩ ⟨9, 9, 9, 9⟩ (by decide) (by decide)).2.2.2.2.1⟩

/-- C20 (the code departs from the claim): on the 32-byte buffer [1,..,8] from
the context left by init, the scalar loop stores superscalar[3].v[0..1] =
(9, 14) while the vector path extracts val30, val31 = (11, 16); the other
fourteen values agree. -/
theorem C20_vector_path_differs :
    (fletcher_4_superscalar4_native Machine.zero
        (fletcher_4_superscalar4_init ⟨⟨0, 0, 0, 0⟩, ⟨0, 0, 0, 0⟩, ⟨0, 0, 0, 0⟩, ⟨0, 0, 0, 0⟩⟩)
        [1, 2, 3, 4, 5, 6, 7, 8] 32).map (fun r => (r.ctx, r.vals)) =
      some (⟨⟨6, 8, 10, 12⟩, ⟨7, 10, 13, 16⟩, ⟨8, 12, 16, 20⟩, ⟨9, 14, 19, 24⟩⟩,
        ⟨⟨6, 8, 10, 12⟩, ⟨7, 10, 13, 16⟩, ⟨8, 12, 16, 20⟩, ⟨11, 16, 19, 24⟩⟩) := by
  simp [superscalar4_init_eq, fletcher_4_superscalar4_native, native_printk_reads, load64,
    superscalar4_native_loop, superscalar4_neon_loop, load4, superscalar4_body, add64,
    SUPERSCALAR4_NEON_FINI_LOOP,
    SUPERSCALAR4_NEON_MAIN, SUPERSCALAR4_NEON_MAIN_LOAD, SUPERSCALAR4_NEON_INIT, emit_v, setv_v,
    Machine.zero, ld1_superscalar, VReg.add2d, VReg.zip1, VReg.zip2, VReg.eor, VReg.of4s,
    VReg.e0, VReg.e1, VReg.e2, VReg.e3]

end Fletcher

namespace Cred

/-- C21: with no mount user namespace (`mnt_ns` is `NULL`) the four id mappers
return their argument, for every uid and gid, so mapping into the mount and
back returns every id unchanged. -/
theorem C21_null_namespace_identity (uid gid : Nat) :
    zfs_uid_into_mnt none uid = uid ∧ zfs_uid_from_mnt none uid = uid ∧
      zfs_gid_into_mnt none gid = gid ∧ zfs_gid_from_mnt none gid = gid ∧
      zfs_uid_from_mnt none (zfs_uid_into_mnt none uid) = uid ∧
      zfs_gid_from_mnt none (zfs_gid_into_mnt none gid) = gid :=
  ⟨rfl, rfl, rfl, rfl, rfl, rfl⟩

end Cred
